import Mathlib

/-!
Verification development for the Ai-Ops-Ci-CD scanner.

This file gives a shallow embedding of the core of the repository —
the content-addressed scan cache, the oracle client with its cost ledger,
the free-text result-extraction chain of `security_analyzer.py`, and the
orchestration / aggregation logic of `src/compliance_scanner.py` — and
proves properties of that embedding.

Modeling conventions:
* Python strings are Lean `String`s; character-level scanning is done on
  `List Char` (`String.data`).  Case mapping (`str.lower`/`str.upper`) and
  whitespace classes are modeled at ASCII fidelity, which covers every
  string the scanner itself manufactures.
* Python `None` is `Option.none`; a `try`/`except` whose body can fail is
  modeled with `Option`/`Except` results.
* External effects (the Bedrock model invocation, the NVD and GitHub HTTP
  lookups, CPython's `compile`) are parameters of the embedding: they are
  the nondeterministic inputs of the program, and every theorem quantifies
  over them.
* Floats used for money are modeled as `ℚ` (the literals involved are
  exactly representable and no rounding-sensitive comparison occurs).
-/

namespace AiOps

/-- Python whitespace class (`\s` over ASCII): space, tab, newline,
carriage return, vertical tab, form feed. -/
def isPyWs (c : Char) : Bool :=
  c = ' ' || c = '\t' || c = '\n' || c = '\r' || c = '\x0b' || c = '\x0c'

/-- Python `str.strip()` on a character list (ASCII whitespace). -/
def pyStripL (s : List Char) : List Char :=
  ((s.dropWhile isPyWs).reverse.dropWhile isPyWs).reverse

/-- Python `str.strip()`. -/
def pyStrip (s : String) : String := ⟨pyStripL s.data⟩

/-- ASCII lowercase mapping of one character (models `str.lower` on the
ASCII range, which is the only range the scanner's own strings use). -/
def pyLowerChar (c : Char) : Char :=
  if 'A' ≤ c ∧ c ≤ 'Z' then Char.ofNat (c.toNat + 32) else c

/-- Python `str.lower()` (ASCII fidelity). -/
def pyLower (s : String) : String := ⟨s.data.map pyLowerChar⟩

/-- ASCII uppercase mapping of one character (models `str.upper`). -/
def pyUpperChar (c : Char) : Char :=
  if 'a' ≤ c ∧ c ≤ 'z' then Char.ofNat (c.toNat - 32) else c

/-- Python `str.upper()` (ASCII fidelity). -/
def pyUpper (s : String) : String := ⟨s.data.map pyUpperChar⟩

/-- Python `pat in s` substring test, on character lists. -/
def containsSubL (pat : List Char) : List Char → Bool
  | [] => pat.isEmpty
  | c :: cs => pat.isPrefixOf (c :: cs) || containsSubL pat cs

/-- Python `pat in s` substring test on strings. -/
def containsSubStr (pat s : String) : Bool := containsSubL pat.data s.data

/-- Python `s.endswith(suffix)`. -/
def endsWithStr (suffix s : String) : Bool := suffix.data.isSuffixOf s.data

/-- Python `s.startswith(pre)` on lists. -/
def startsWithL (pre s : List Char) : Bool := pre.isPrefixOf s

/-- Worker for Python `str.replace`: `k` is the number of characters of a
just-matched pattern occurrence still to be skipped.  Replacement proceeds
left to right over non-overlapping occurrences, exactly as
`str.replace(pat, rep)` does for a non-empty `pat`. -/
def replaceGo (pat rep : List Char) : Nat → List Char → List Char
  | _, [] => []
  | k + 1, _ :: cs => replaceGo pat rep k cs
  | 0, c :: cs =>
    if pat.isPrefixOf (c :: cs) then rep ++ replaceGo pat rep (pat.length - 1) cs
    else c :: replaceGo pat rep 0 cs

/-- Python `s.replace(pat, rep)` on lists (for non-empty `pat`). -/
def replaceAllL (pat rep s : List Char) : List Char := replaceGo pat rep 0 s

/-- Python `s.replace(pat, rep)` on strings. -/
def pyReplace (s pat rep : String) : String := ⟨replaceAllL pat.data rep.data s.data⟩

/-- Prepend a character to the first piece of a split (helper for
`splitGo`). -/
def consHead (c : Char) : List (List Char) → List (List Char)
  | [] => [[c]]
  | p :: ps => (c :: p) :: ps

/-- Worker for splitting on a separator pattern, with the same skip-state
convention as `replaceGo`; `splitGo pat 0 s` is the list of the maximal
pieces of `s` between the left-to-right non-overlapping occurrences of
`pat` (Python `s.split(pat)` for non-empty `pat`). -/
def splitGo (pat : List Char) : Nat → List Char → List (List Char)
  | _, [] => [[]]
  | k + 1, _ :: cs => splitGo pat k cs
  | 0, c :: cs =>
    if pat.isPrefixOf (c :: cs) then [] :: splitGo pat (pat.length - 1) cs
    else consHead c (splitGo pat 0 cs)

/-- Python `s.split(pat)` on lists (non-empty `pat`). -/
def splitAllL (pat s : List Char) : List (List Char) := splitGo pat 0 s

/-- Join a list of pieces with a separator (the inverse of `splitAllL`,
and the shape of Python's `sep.join(pieces)`). -/
def joinSep (sep : List Char) : List (List Char) → List Char
  | [] => []
  | [p] => p
  | p :: ps => p ++ sep ++ joinSep sep ps

/-- Python `s.split('\n')` used throughout the scanner, paired with
1-based line numbers as produced by `enumerate(lines, 1)`. -/
def splitLinesL (s : List Char) : List (List Char) := splitAllL ['\n'] s

/-- Attach 1-based indices, as `enumerate(lines, 1)` does. -/
def withLineNumbers (ls : List (List Char)) : List (Nat × List Char) :=
  ls.enumFrom 1

/-- Generic leftmost-match scanner: try the matcher at every start
position, left to right — the search behavior of `re.search`. -/
def scanFor {α : Type} (m : List Char → Option α) : List Char → Option α
  | [] => m []
  | c :: cs =>
    match m (c :: cs) with
    | some r => some r
    | none => scanFor m cs

/-- Consume a literal, or fail (a literal fragment of a regex). -/
def eatLit (lit s : List Char) : Option (List Char) :=
  if lit.isPrefixOf s then some (s.drop lit.length) else none

/-- Consume `\s*` (greedy, the following fragment is never whitespace in
the patterns modeled here, so greediness is deterministic). -/
def eatWs0 (s : List Char) : List Char := s.dropWhile isPyWs

/-- Consume `\s+`: at least one whitespace character, then greedily all. -/
def eatWs1 : List Char → Option (List Char)
  | c :: cs => if isPyWs c then some (cs.dropWhile isPyWs) else none
  | [] => none

/-- Python `xs.split(sep)[-1]` for a one-character separator: the suffix
after the last occurrence of `sep`. -/
def afterLastChar (sep : Char) (s : List Char) : List Char :=
  ((s.reverse.takeWhile (· ≠ sep)).reverse)

/-- Python `xs.split(sep)[0]` for a one-character separator: the prefix
before the first occurrence of `sep`. -/
def beforeFirstChar (sep : Char) (s : List Char) : List Char :=
  s.takeWhile (· ≠ sep)

/-! ## JSON values and `json.loads`

The oracle responses are fed to `json.loads`; the extractors then walk the
resulting Python value with `dict.get`, indexing and truthiness tests.
`JVal` is the value universe; the parser below accepts the JSON grammar
(objects, arrays, strings with escapes, numbers kept as raw lexemes,
literals) with the strictness of `json.loads`.  Deviation noted: `\uXXXX`
escapes denoting surrogate halves make the parse fail here, where CPython
would produce a lone surrogate; no string in this development uses them. -/

/-- A parsed JSON value / the Python values the extractors build. -/
inductive JVal where
  | jnull : JVal
  | jbool : Bool → JVal
  | jnum : List Char → JVal
  | jstr : String → JVal
  | jarr : List JVal → JVal
  | jobj : List (String × JVal) → JVal

/-- Assignment into an association list with Python-`dict` semantics:
an existing key is overwritten in place, a new key is appended. -/
def assocSet {α : Type} (m : List (String × α)) (k : String) (v : α) :
    List (String × α) :=
  if m.any (fun kv => kv.1 = k) then
    m.map (fun kv => if kv.1 = k then (k, v) else kv)
  else m ++ [(k, v)]

/-- First (and, for parser-produced objects, only) binding of a key. -/
def assocGet {α : Type} : List (String × α) → String → Option α
  | [], _ => none
  | kv :: m, k => if kv.1 = k then some kv.2 else assocGet m k

/-- JSON insignificant whitespace (`json.loads` skips exactly these). -/
def isJsonWs (c : Char) : Bool :=
  c = ' ' || c = '\t' || c = '\n' || c = '\r'

/-- Skip JSON whitespace. -/
def eatWsJ (s : List Char) : List Char := s.dropWhile isJsonWs

/-- Decode one simple string escape (`\"`, `\\`, `\/`, `\b`, `\f`, `\n`,
`\r`, `\t`). -/
def escChar : Char → Option Char
  | '"' => some '"'
  | '\\' => some '\\'
  | '/' => some '/'
  | 'b' => some '\x08'
  | 'f' => some '\x0c'
  | 'n' => some '\n'
  | 'r' => some '\r'
  | 't' => some '\t'
  | _ => none

/-- Hex digit value. -/
def hexVal (c : Char) : Option Nat :=
  if '0' ≤ c ∧ c ≤ '9' then some (c.toNat - '0'.toNat)
  else if 'a' ≤ c ∧ c ≤ 'f' then some (c.toNat - 'a'.toNat + 10)
  else if 'A' ≤ c ∧ c ≤ 'F' then some (c.toNat - 'A'.toNat + 10)
  else none

/-- Body of a JSON string after the opening quote: returns the decoded
contents and the remainder after the closing quote. -/
def parseStrBody : Nat → List Char → Option (List Char × List Char)
  | 0, _ => none
  | _ + 1, [] => none
  | fuel + 1, c :: cs =>
    if c = '"' then some ([], cs)
    else if c = '\\' then
      match cs with
      | [] => none
      | e :: cs' =>
        if e = 'u' then
          match cs' with
          | h1 :: h2 :: h3 :: h4 :: rest =>
            match hexVal h1, hexVal h2, hexVal h3, hexVal h4 with
            | some v1, some v2, some v3, some v4 =>
              let n := ((v1 * 16 + v2) * 16 + v3) * 16 + v4
              if 0xd800 ≤ n ∧ n < 0xe000 then none
              else
                match parseStrBody fuel rest with
                | some (body, r) => some (Char.ofNat n :: body, r)
                | none => none
            | _, _, _, _ => none
          | _ => none
        else
          match escChar e with
          | some d =>
            match parseStrBody fuel cs' with
            | some (body, r) => some (d :: body, r)
            | none => none
          | none => none
    else if c.toNat < 0x20 then none
    else
      match parseStrBody fuel cs with
      | some (body, r) => some (c :: body, r)
      | none => none

/-- Lex the digit run of a number; at least one digit. -/
def lexDigits1 (s : List Char) : Option (List Char × List Char) :=
  let ds := s.takeWhile (fun c => '0' ≤ c ∧ c ≤ '9')
  if ds.isEmpty then none else some (ds, s.drop ds.length)

/-- Lex a JSON number (sign, integer part with no leading zeros, optional
fraction, optional exponent), returning the raw lexeme. -/
def lexNumber (s : List Char) : Option (List Char × List Char) :=
  let (sign, s1) := match s with
    | '-' :: r => (['-'], r)
    | _ => ([], s)
  match s1 with
  | [] => none
  | c :: _ =>
    if ¬('0' ≤ c ∧ c ≤ '9') then none
    else
      match lexDigits1 s1 with
      | none => none
      | some (ip, s2) =>
        if c = '0' ∧ ip.length ≠ 1 then none
        else
          let (fp, s3) := match s2 with
            | '.' :: r =>
              match lexDigits1 r with
              | some (ds, r') => ('.' :: ds, r')
              | none => ([], s2)
            | _ => ([], s2)
          if fp.isEmpty && (match s2 with | '.' :: _ => true | _ => false) then none
          else
            let (ep, s4) := match s3 with
              | e :: r =>
                if e = 'e' ∨ e = 'E' then
                  let (es, r1) := match r with
                    | '+' :: r' => (['+'], r')
                    | '-' :: r' => (['-'], r')
                    | _ => ([], r)
                  match lexDigits1 r1 with
                  | some (ds, r2) => (e :: es ++ ds, r2)
                  | none => ([], s3)
                else ([], s3)
              | [] => ([], s3)
            if ep.isEmpty &&
               (match s3 with | e :: _ => e = 'e' || e = 'E' | [] => false) then none
            else some (sign ++ ip ++ fp ++ ep, s4)

mutual

/-- Parse one JSON value (fuel-structural so the kernel can evaluate it). -/
def parseVal : Nat → List Char → Option (JVal × List Char)
  | 0, _ => none
  | fuel + 1, s =>
    match eatWsJ s with
    | [] => none
    | c :: cs =>
      if c = '"' then
        match parseStrBody (cs.length + 1) cs with
        | some (body, r) => some (JVal.jstr ⟨body⟩, r)
        | none => none
      else if c = '\x7b' then
        match eatWsJ cs with
        | '\x7d' :: r => some (JVal.jobj [], r)
        | r => parseMembers fuel r []
      else if c = '[' then
        match eatWsJ cs with
        | ']' :: r => some (JVal.jarr [], r)
        | r => parseElems fuel r []
      else if ['t', 'r', 'u', 'e'].isPrefixOf (c :: cs) then
        some (JVal.jbool true, (c :: cs).drop 4)
      else if ['f', 'a', 'l', 's', 'e'].isPrefixOf (c :: cs) then
        some (JVal.jbool false, (c :: cs).drop 5)
      else if ['n', 'u', 'l', 'l'].isPrefixOf (c :: cs) then
        some (JVal.jnull, (c :: cs).drop 4)
      else
        match lexNumber (c :: cs) with
        | some (raw, r) => some (JVal.jnum raw, r)
        | none => none

/-- Parse the members of an object, positioned at a key (not at `}`). -/
def parseMembers : Nat → List Char → List (String × JVal) →
    Option (JVal × List Char)
  | 0, _, _ => none
  | fuel + 1, s, acc =>
    match s with
    | '"' :: cs =>
      match parseStrBody (cs.length + 1) cs with
      | none => none
      | some (key, r1) =>
        match eatWsJ r1 with
        | ':' :: r2 =>
          match parseVal fuel r2 with
          | none => none
          | some (v, r3) =>
            let acc' := assocSet acc ⟨key⟩ v
            match eatWsJ r3 with
            | ',' :: r4 => parseMembers fuel (eatWsJ r4) acc'
            | '\x7d' :: r4 => some (JVal.jobj acc', r4)
            | _ => none
        | _ => none
    | _ => none

/-- Parse the elements of an array, positioned at a value (not at `]`). -/
def parseElems : Nat → List Char → List JVal → Option (JVal × List Char)
  | 0, _, _ => none
  | fuel + 1, s, acc =>
    match parseVal fuel s with
    | none => none
    | some (v, r1) =>
      match eatWsJ r1 with
      | ',' :: r2 => parseElems fuel r2 (acc ++ [v])
      | ']' :: r2 => some (JVal.jarr (acc ++ [v]), r2)
      | _ => none

end

/-- `json.loads`: parse with surrounding whitespace, requiring the whole
input to be consumed; `none` models the `JSONDecodeError` branch. -/
def json_loadsL (s : List Char) : Option JVal :=
  match parseVal (s.length + 1) s with
  | some (v, rest) => if (eatWsJ rest).isEmpty then some v else none
  | none => none

/-- `json.loads` on a string. -/
def json_loads (s : String) : Option JVal := json_loadsL s.data

/-- Python `dict.get(k)` on a parsed value (`None` when not a dict or the
key is absent — in the source that raises/propagates as the same miss). -/
def jLookup (v : JVal) (k : String) : Option JVal :=
  match v with
  | JVal.jobj fields => assocGet fields k
  | _ => none

/-- Python `dict.get(k, default)`. -/
def dGet (v : JVal) (k : String) (dflt : JVal) : JVal :=
  match jLookup v k with
  | some w => w
  | none => dflt

/-- Python truthiness of a value (`if not ai_result:`).  A number is
truthy iff non-zero; the raw lexemes reaching this test in the embedding
are never numbers, so the simple check used here is not load-bearing. -/
def pyTruthy : JVal → Bool
  | JVal.jnull => false
  | JVal.jbool b => b
  | JVal.jnum raw => ¬(raw = ['0'] ∨ raw = ['-', '0'])
  | JVal.jstr s => s ≠ ""
  | JVal.jarr xs => ¬xs.isEmpty
  | JVal.jobj fs => ¬fs.isEmpty

/-- Python `len(v)`: `none` models the `TypeError` raised on unsized
values. -/
def pyLen : JVal → Option Nat
  | JVal.jstr s => some s.length
  | JVal.jarr xs => some xs.length
  | JVal.jobj fs => some fs.length
  | _ => none

/-- Python `v == s` for a string `s` (cross-type equality is `False`). -/
def pyEqStr (v : JVal) (s : String) : Bool :=
  match v with
  | JVal.jstr t => t = s
  | _ => false

/-! ## The extraction chain of `security_analyzer.py`

`PureAISecurityAnalyzer.ai_analyze_and_fix` (lines 16–152) tries four
extraction methods on the oracle's free text, in order, taking the first
whose result is truthy, and otherwise answers a no-op envelope.  The
regexes are embedded with Python `re` leftmost-match semantics. -/

/-- One pass of `re.sub(pat + r'\s*', '', s)` for a literal `pat`:
remove every left-to-right non-overlapping occurrence of `pat` together
with the greedy whitespace run following it.  The `Nat` is the number of
just-matched pattern characters still being skipped; the `Bool` records
that trailing whitespace of a match is being consumed. -/
def subPatWs (pat : List Char) : Nat → Bool → List Char → List Char
  | _, _, [] => []
  | k + 1, eat, _ :: cs => subPatWs pat k eat cs
  | 0, eat, c :: cs =>
    if eat && isPyWs c then subPatWs pat 0 true cs
    else if pat.isPrefixOf (c :: cs) then subPatWs pat (pat.length - 1) true cs
    else c :: subPatWs pat 0 false cs

/-- Method 1 cleaning (lines 56–57): first strip ```` ```json ````-plus-
whitespace, then stray ```` ``` ````-plus-whitespace. -/
def cleanTicks (s : List Char) : List Char :=
  subPatWs "```".data 0 false (subPatWs "```json".data 0 false s)

/-- The quoted key the method-1 and method-2 regexes look for. -/
def m1key : List Char := "\"fixed_content\"".data

/-- Take characters up to and including the first closing brace
(the lazy `.*?\x7d` tail of the method-1 regex). -/
def takeThroughBrace : List Char → List Char
  | [] => []
  | c :: cs => if c = '\x7d' then ['\x7d'] else c :: takeThroughBrace cs

/-- Take characters through the first occurrence of the key and then
through the first closing brace after it. -/
def takeThroughKeyBrace : List Char → List Char
  | [] => []
  | c :: cs =>
    if m1key.isPrefixOf (c :: cs) then
      m1key ++ takeThroughBrace ((c :: cs).drop m1key.length)
    else c :: takeThroughKeyBrace cs

/-- Does the text contain the key followed (anywhere later) by a closing
brace?  This is exactly the condition for the method-1 regex to match
starting at a given opening brace. -/
def hasKeyBrace : List Char → Bool
  | [] => false
  | c :: cs =>
    (m1key.isPrefixOf (c :: cs) && ((c :: cs).drop m1key.length).contains '\x7d')
      || hasKeyBrace cs

/-- Leftmost match of the DOTALL regex
`\x7b.*?"fixed_content".*?\x7d` (line 59): from the first opening brace
that is followed by the key and then a closing brace, through the first
closing brace after the first such key occurrence (lazy quantifiers). -/
def method1Span : List Char → Option (List Char)
  | [] => none
  | c :: cs =>
    if c = '\x7b' && hasKeyBrace cs then some (c :: takeThroughKeyBrace cs)
    else method1Span cs

/-- Method 1 (lines 54–64): clean fences, take the first candidate span,
`json.loads` it; any parse failure aborts the method (no second span is
tried — the `try` wraps the whole method). -/
def method1 (txt : List Char) : Option JVal :=
  match method1Span (cleanTicks txt) with
  | some span => json_loadsL span
  | none => none

/-- The method-2 regex `"fixed_content"\s*:\s*"([^"]*(?:\\.[^"]*)*)"`
tried at one position.  Because `[^"]` also matches a backslash, the
greedy first alternative always consumes up to the first quote after the
opening quote, so the group is exactly the text up to that first quote
(the escape alternative of the regex can never extend a match). -/
def m2At (s : List Char) : Option (List Char) :=
  match eatLit m1key s with
  | none => none
  | some r1 =>
    match eatWs0 r1 with
    | ':' :: r3 =>
      match eatWs0 r3 with
      | '"' :: r5 =>
        let content := r5.takeWhile (· ≠ '"')
        if (r5.drop content.length).isEmpty then none else some content
      | _ => none
    | _ => none

/-- Method 2 (lines 66–80): leftmost match of the field regex on the raw
response, then unescape `\n` and `\"` and wrap in the canned envelope. -/
def method2 (txt : List Char) : Option JVal :=
  match scanFor m2At txt with
  | none => none
  | some content =>
    let fc := replaceAllL ['\\', '"'] ['"'] (replaceAllL ['\\', 'n'] ['\n'] content)
    some (JVal.jobj
      [("issues", JVal.jarr [JVal.jobj
          [("severity", JVal.jstr "high"),
           ("description", JVal.jstr "Security issues fixed"),
           ("line", JVal.jnum ['1'])]]),
       ("fixed_content", JVal.jstr ⟨fc⟩),
       ("changes_made", JVal.jarr [JVal.jstr "AI security fixes applied"])])

/-- `"…"` with at least one non-quote character (`"[^"]+"`). -/
def eatQuoted1 (s : List Char) : Option (List Char) :=
  match s with
  | '"' :: cs =>
    let t := cs.takeWhile (· ≠ '"')
    if t.isEmpty then none
    else
      match cs.drop t.length with
      | '"' :: rest => some rest
      | _ => none
  | _ => none

/-- Does the Terraform anchor regex
`resource\s+"[^"]+"\s+"[^"]+"\s*\x7b` match at this position? -/
def tfAnchorAt (s : List Char) : Bool :=
  match eatLit "resource".data s with
  | none => false
  | some r1 =>
    match eatWs1 r1 with
    | none => false
    | some r2 =>
      match eatQuoted1 r2 with
      | none => false
      | some r3 =>
        match eatWs1 r3 with
        | none => false
        | some r4 =>
          match eatQuoted1 r4 with
          | none => false
          | some r5 =>
            match eatWs0 r5 with
            | c :: _ => c = '\x7b'
            | [] => false

/-- Leftmost Terraform anchor; the group is the whole suffix from the
anchor (the regex ends in greedy DOTALL `.*`). -/
def findTfAnchor : List Char → Option (List Char)
  | [] => none
  | c :: cs => if tfAnchorAt (c :: cs) then some (c :: cs) else findTfAnchor cs

/-- Leftmost `apiVersion:` anchor; group is the suffix from it. -/
def findApiVersion : List Char → Option (List Char)
  | [] => none
  | c :: cs =>
    if "apiVersion:".data.isPrefixOf (c :: cs) then some (c :: cs)
    else findApiVersion cs

/-- The fixed substitution table (known-bad trigger, approved fix). -/
def cidrBad : String := "0.0.0.0/0"
/-- Approved replacement for the open CIDR. -/
def cidrGood : String := "10.0.0.0/8"
/-- Privileged-mode trigger. -/
def privBad : String := "privileged: true"
/-- Approved replacement for the privileged flag. -/
def privGood : String := "privileged: false"
/-- Root-user trigger. -/
def rootBad : String := "runAsUser: 0"
/-- Approved replacement for the root user id. -/
def rootGood : String := "runAsUser: 1000"

/-- Method-3 cleanup (lines 93–99): on the extracted candidate, each
trigger present in the (current) candidate is replaced everywhere. -/
def method3Fix (s : List Char) : List Char :=
  let s1 := if containsSubL cidrBad.data s then
      replaceAllL cidrBad.data cidrGood.data s else s
  let s2 := if containsSubL privBad.data s1 then
      replaceAllL privBad.data privGood.data s1 else s1
  if containsSubL rootBad.data s2 then
    replaceAllL rootBad.data rootGood.data s2 else s2

/-- The one-issue `issues` list the synthesized envelopes carry. -/
def issuesOneHigh (desc : String) : JVal :=
  JVal.jarr [JVal.jobj
    [("severity", JVal.jstr "high"),
     ("description", JVal.jstr desc),
     ("line", JVal.jnum ['1'])]]

/-- Method 3 (lines 82–108): language-structural anchor — a
`resource "…" "…" \x7b` block for `.tf` files, `apiVersion:` otherwise —
taking everything from the anchor to the end, stripped, with the basic
trigger fixes applied. -/
def method3 (filename : String) (txt : List Char) : Option JVal :=
  let anchor := if endsWithStr ".tf" filename then findTfAnchor txt
                else findApiVersion txt
  match anchor with
  | none => none
  | some cand =>
    let fixed := method3Fix (pyStripL cand)
    some (JVal.jobj
      [("issues", issuesOneHigh "Security vulnerabilities detected"),
       ("fixed_content", JVal.jstr ⟨fixed⟩),
       ("changes_made", JVal.jarr [JVal.jstr "Applied security fixes"])])

/-- Method 4's substitutions (lines 110–133): membership is tested on the
*original* content, replacements are applied sequentially, and a change
description is recorded per trigger found. -/
def m4Steps (content : List Char) : List Char × List String :=
  let f1 := if containsSubL cidrBad.data content then
      replaceAllL cidrBad.data cidrGood.data content else content
  let c1 : List String := if containsSubL cidrBad.data content then
      ["Restricted CIDR blocks from 0.0.0.0/0 to 10.0.0.0/8"] else []
  let f2 := if containsSubL privBad.data content then
      replaceAllL privBad.data privGood.data f1 else f1
  let c2 := if containsSubL privBad.data content then
      c1 ++ ["Disabled privileged containers"] else c1
  let f3 := if containsSubL rootBad.data content then
      replaceAllL rootBad.data rootGood.data f2 else f2
  let c3 := if containsSubL rootBad.data content then
      c2 ++ ["Changed root user to UID 1000"] else c2
  (f3, c3)

/-- Method 4: succeeds iff at least one trigger was present. -/
def method4 (content : List Char) : Option JVal :=
  let st := m4Steps content
  if st.2.isEmpty then none
  else some (JVal.jobj
    [("issues", issuesOneHigh "Security issues found and fixed"),
     ("fixed_content", JVal.jstr ⟨st.1⟩),
     ("changes_made", JVal.jarr (st.2.map JVal.jstr))])

/-- Truthiness of the running `ai_result` (`if not ai_result:`). -/
def aiResultTruthy : Option JVal → Bool
  | none => false
  | some v => pyTruthy v

/-- Keep the current result if truthy, else fall to the next method. -/
def pickTruthy (a b : Option JVal) : Option JVal :=
  if aiResultTruthy a then a else b

/-- Final fallback envelope (lines 136–141). -/
def fallbackEnvelope (content : String) : JVal :=
  JVal.jobj
    [("issues", JVal.jarr [JVal.jobj
        [("severity", JVal.jstr "medium"),
         ("description", JVal.jstr "AI analysis completed"),
         ("line", JVal.jnum ['1'])]]),
     ("fixed_content", JVal.jstr content),
     ("changes_made", JVal.jarr [])]

/-- Envelope of the outer `except` (lines 146–152). -/
def errorEnvelope (content : String) : JVal :=
  JVal.jobj
    [("issues", JVal.jarr []),
     ("fixed_content", JVal.jstr content),
     ("changes_made", JVal.jarr [])]

/-- The method chain on the stripped response text. -/
def ai_chain (content filename : String) (txt : List Char) : JVal :=
  let r := pickTruthy
    (pickTruthy (pickTruthy (method1 txt) (method2 txt)) (method3 filename txt))
    (method4 content.data)
  match r with
  | some v => if pyTruthy v then v else fallbackEnvelope content
  | none => fallbackEnvelope content

/-- `ai_analyze_and_fix(content, filename)`: the oracle parameter is the
outcome of the Bedrock invocation *and* response-body field extraction
(lines 27–46); `Except.error` is any exception before the method chain,
handled by the outer `except`. -/
def ai_analyze_and_fix (oracle : Except Unit String) (content filename : String) :
    JVal :=
  match oracle with
  | Except.error _ => errorEnvelope content
  | Except.ok raw => ai_chain content filename (pyStripL raw.data)

/-- Outcome of `apply_ai_fixes`: whether the candidate was written, the
file's content afterwards (`none` = unreadable file), and the returned
issue list. -/
structure ApplyOut where
  written : Bool
  finalContent : Option String
  issuesRet : JVal

/-- `apply_ai_fixes(file_path)` (lines 154–193).  `fileContent` is what
reading the file yields (`none` models the read raising, caught by the
outer `except`, which returns `[]` without touching the file).  A
non-string `fixed_content` that passes the gate models the truncate-then-
`TypeError` of `open(..., 'w')` + `f.write(non-str)`: the file is left
empty and `[]` is returned. -/
def apply_ai_fixes (oracle : Except Unit String) (fileContent : Option String)
    (file_path : String) : ApplyOut :=
  match fileContent with
  | none => ⟨false, none, JVal.jarr []⟩
  | some original =>
    let ai_result := ai_analyze_and_fix oracle original file_path
    if ¬pyTruthy ai_result then ⟨false, some original, JVal.jarr []⟩
    else
      let issues := dGet ai_result "issues" (JVal.jarr [])
      let fixed_content := dGet ai_result "fixed_content" (JVal.jstr original)
      let changes := dGet ai_result "changes_made" (JVal.jarr [])
      if ¬pyTruthy fixed_content then ⟨false, some original, issues⟩
      else if pyEqStr fixed_content original then ⟨false, some original, issues⟩
      else
        match pyLen changes with
        | none => ⟨false, some original, JVal.jarr []⟩
        | some n =>
          if n > 0 then
            match fixed_content with
            | JVal.jstr s => ⟨true, some s, issues⟩
            | _ => ⟨false, some "", JVal.jarr []⟩
          else ⟨false, some original, issues⟩

/-! ## `src/compliance_scanner.py`: data model -/

/-- One issue dictionary as produced by `compliance_detect`,
`check_version_pinning` or the vulnerability synthesis in `scan_file`.
Optional fields model keys that are absent on some producers. -/
structure Issue where
  line : Nat := 1
  severity : String
  description : String := ""
  itype : Option String := none
  package : Option String := none
  vulnerability_id : Option String := none
  source : Option String := none
  compliance_violations : List String := []

/-- The per-file result dictionary built at `scan_file` lines 1000–1007. -/
structure ScanResult where
  filepath : String
  language : String
  framework : Option String
  issues : List Issue
  fixed : Bool
  compliance_violations : List String

/-- One cache entry (`update_file_cache`, lines 190–198): the content
digest and the stored result.  `result := none` is Python's `None`,
stored verbatim for clean files; entries written by `update_file_cache`
always carry both keys. -/
structure CacheEntry where
  hash : String
  result : Option ScanResult

/-- `self.file_cache`: a dict from file path to entry. -/
def Cache : Type := List (String × CacheEntry)

/-- The file system as seen through `open(...).read()`: `none` models an
unreadable path (the read raises). -/
def FS : Type := String → Option String

/-- `get_file_hash` (lines 173–179): digest of the current content, or
`None` when the file cannot be read.  The digest function (SHA-256 hex in
the source) enters as a parameter — the cache only ever compares digests
for equality. -/
def get_file_hash (hashFn : String → String) (fs : FS) (p : String) :
    Option String :=
  (fs p).map hashFn

/-- `is_file_changed` (lines 181–188): changed when unreadable, unseen, or
the stored digest differs from the current one. -/
def is_file_changed (hashFn : String → String) (cache : Cache) (fs : FS)
    (p : String) : Bool :=
  match get_file_hash hashFn fs p with
  | none => true
  | some h =>
    match assocGet cache p with
    | none => true
    | some e => e.hash ≠ h

/-- `update_file_cache` (lines 190–198): overwrite the entry under the
*current* digest; a file that cannot be hashed is not cached. -/
def update_file_cache (hashFn : String → String) (cache : Cache) (fs : FS)
    (p : String) (result : Option ScanResult) : Cache :=
  match get_file_hash hashFn fs p with
  | none => cache
  | some h => assocSet cache p ⟨h, result⟩

/-- `get_cached_result` (lines 200–207).  Python cannot distinguish a
miss from a stored `None` result: both return `None`, so the flattened
`Option` is the faithful return type. -/
def get_cached_result (hashFn : String → String) (cache : Cache) (fs : FS)
    (p : String) : Option ScanResult :=
  if is_file_changed hashFn cache fs p then none
  else
    match assocGet cache p with
    | some e => e.result
    | none => none

/-! ## Oracle client and cost ledger (`call_ai_with_compliance`) -/

/-- The ledger fields of the scanner object (`ai_calls`, `total_cost`). -/
structure CostState where
  ai_calls : Nat
  total_cost : ℚ

/-- The protocol family chosen from the model id (line 277). -/
inductive ReqFamily where
  | anthropic : ReqFamily
  | nova : ReqFamily

/-- The request envelope handed to `bedrock.invoke_model`: family-shaped
body with the wrapped prompt and the fixed sampling parameters. -/
structure Request where
  family : ReqFamily
  maxTokens : Nat
  temperature : ℚ := 0.1
  topP : ℚ := 0.9
  prompt : String

/-- The protocol family chosen once from the model id: line 277,
`'anthropic' in self.model_id`. -/
def reqFamilyOf (model_id : String) : ReqFamily :=
  if containsSubStr "anthropic" model_id then ReqFamily.anthropic
  else ReqFamily.nova

/-- The fixed compliance preamble wrapped around every prompt
(lines 262–273). -/
def compliancePreamble : String :=
  "\nYou are a security expert specializing in compliance standards: PCI-DSS, SOC2, HIPAA, GDPR, OWASP Top 10.\n\nContext:\n- PCI-DSS: Protect cardholder data, encrypt transmission, implement access controls\n- SOC2: Security, availability, confidentiality controls\n- HIPAA: Protect PHI with encryption, access controls, audit logs\n- GDPR: Data protection by design, consent, minimization\n- OWASP: Prevent injection, broken auth, data exposure\n\n"

/-- `compliance_prompt = f"...{prompt}\n"`. -/
def wrapPrompt (prompt : String) : String :=
  compliancePreamble ++ prompt ++ "\n"

/-- The request envelope built for one call (either branch of
lines 277–302 builds the family-shaped body from the wrapped prompt and
the `AI_MAX_TOKENS` setting, with the fixed sampling parameters). -/
def mkRequest (model_id : String) (maxTokens : Nat) (compliance_prompt : String) :
    Request :=
  { family := reqFamilyOf model_id, maxTokens := maxTokens,
    prompt := compliance_prompt }

/-- Python `xs[i]`. -/
def jIndex (v : JVal) (i : Nat) : Option JVal :=
  match v with
  | JVal.jarr xs => xs.get? i
  | _ => none

/-- A string, or a raised `AttributeError`/`TypeError` (`none`). -/
def asStr : JVal → Option String
  | JVal.jstr s => some s
  | _ => none

/-- Navigate the response body to the output text: `result['content'][0]
['text']` for the Claude shape, `result['output']['message']['content']
[0]['text']` for the Nova shape; any missing step raises, which the
enclosing `except` catches (`none`). -/
def extractModelText (fam : ReqFamily) (body : JVal) : Option String :=
  match fam with
  | ReqFamily.anthropic =>
    (jLookup body "content").bind (jIndex · 0) |>.bind (jLookup · "text")
      |>.bind asStr
  | ReqFamily.nova =>
    (jLookup body "output").bind (jLookup · "message")
      |>.bind (jLookup · "content") |>.bind (jIndex · 0)
      |>.bind (jLookup · "text") |>.bind asStr

/-- `call_ai_with_compliance` (lines 260–317).  `invoke` is the external
transport: it yields the raw response-body text or raises
(`Except.error`).  All failures are converted to `None`; `ai_calls` is
incremented after a successful transport call, *before* body parsing, and
cost is accumulated only after the output text is in hand. -/
def call_ai_with_compliance (invoke : Request → Except String String)
    (model_id : String) (maxTokens : Nat) (st : CostState) (prompt : String) :
    Option String × CostState :=
  let compliance_prompt := wrapPrompt prompt
  match invoke (mkRequest model_id maxTokens compliance_prompt) with
  | Except.error _ => (none, st)
  | Except.ok bodyText =>
    let st1 : CostState := { st with ai_calls := st.ai_calls + 1 }
    match (json_loads bodyText).bind (extractModelText (reqFamilyOf model_id)) with
    | none => (none, st1)
    | some out0 =>
      let output := pyStrip out0
      let input_tokens : ℚ := (compliance_prompt.length : ℚ) / 4
      let output_tokens : ℚ := (output.length : ℚ) / 4
      (some output,
       { st1 with total_cost :=
           st1.total_cost + input_tokens * 0.00035 / 1000 + output_tokens * 0.0014 / 1000 })

/-- The per-call ledger increment: how `(ai_calls, total_cost)` grow for
one prompt, as a function of the same external outcomes. -/
def callDelta (invoke : Request → Except String String) (model_id : String)
    (maxTokens : Nat) (prompt : String) : Nat × ℚ :=
  let compliance_prompt := wrapPrompt prompt
  match invoke (mkRequest model_id maxTokens compliance_prompt) with
  | Except.error _ => (0, 0)
  | Except.ok bodyText =>
    match (json_loads bodyText).bind (extractModelText (reqFamilyOf model_id)) with
    | none => (1, 0)
    | some out0 =>
      let output := pyStrip out0
      (1, ((compliance_prompt.length : ℚ) / 4) * 0.00035 / 1000
            + ((output.length : ℚ) / 4) * 0.0014 / 1000)

/-- A run's sequence of oracle calls, threading the ledger. -/
def oracleRun (invoke : Request → Except String String) (model_id : String)
    (maxTokens : Nat) : CostState → List String → CostState
  | st, [] => st
  | st, p :: ps =>
    oracleRun invoke model_id maxTokens
      (call_ai_with_compliance invoke model_id maxTokens st p).2 ps

/-! ## Knowledge-context query (`query_kb_for_rules`, lines 343–386) -/

/-- The single retrieval query string built at line 348: the snippet is
truncated to its first 500 characters. -/
def kbQuery (code_snippet language : String) : String :=
  "What security rules apply to this " ++ language ++ " code? " ++
    ⟨code_snippet.data.take 500⟩

/-- The list of retrieval calls `query_kb_for_rules` issues for one
snippet: exactly one, with the truncated query — there is no splitting
into chunks anywhere in the function (lines 343–386). -/
def kbQueries (code_snippet language : String) : List String :=
  [kbQuery code_snippet language]

/-! ## Vulnerability findings (CVE / GitHub advisories) -/

/-- A dependency extracted from a file, with its 1-based line. -/
structure Dep where
  name : String
  line : Nat

/-- What one NVD CVE record contributes (id, CVSS base score when one of
the recognized metric blocks is present, description).  `cvss := none`
models the string `'Unknown'` / an unparsable score. -/
structure CveRecord where
  id : String
  cvss : Option ℚ
  description : String

/-- One GitHub security advisory (severity key may be absent). -/
structure Advisory where
  ghsaId : String
  severity : Option String
  summary : String

/-- `_get_severity_from_cvss` (lines 804–819). -/
def _get_severity_from_cvss (score : Option ℚ) : String :=
  match score with
  | none => "UNKNOWN"
  | some s =>
    if s ≥ 9 then "CRITICAL"
    else if s ≥ 7 then "HIGH"
    else if s ≥ 4 then "MEDIUM"
    else "LOW"

/-- The `description[:max] + '...' if len > max else description`
truncation used for both feeds. -/
def truncDesc (maxLen : Nat) (d : String) : String :=
  if d.length > maxLen then (⟨d.data.take maxLen⟩ : String) ++ "..." else d

/-- A raw vulnerability record as appended by the two checkers; GitHub
advisories carry no `line` key (`line := none`). -/
structure Vuln where
  vtype : String
  id : String
  package : String
  line : Option Nat
  severity : String
  description : String

/-- `check_cve_vulnerabilities` (lines 679–739): for each dependency
(optionally capped by `MAX_CVE_DEPS`; `0` = no limit), the NVD lookup
(`nvd`, an external feed; a failed request contributes nothing) yields
records that become CVE vulns with a CVSS-derived severity. -/
def check_cve_vulnerabilities (nvd : String → List CveRecord) (maxDeps : Nat)
    (maxDescLen : Nat) (deps : List Dep) : List Vuln :=
  let deps_to_check := if maxDeps = 0 then deps else deps.take maxDeps
  deps_to_check.flatMap fun d =>
    (nvd d.name).map fun c =>
      { vtype := "CVE", id := c.id, package := d.name, line := some d.line,
        severity := _get_severity_from_cvss c.cvss,
        description := truncDesc maxDescLen c.description }

/-- `check_github_advisories` (lines 741–802): nothing without a token;
otherwise each dependency's advisories (external feed `gh`) become
records whose severity is the upper-cased advisory severity
(`'Unknown'` when absent). -/
def check_github_advisories (gh : String → List Advisory) (hasToken : Bool)
    (maxDeps : Nat) (maxDescLen : Nat) (deps : List Dep) : List Vuln :=
  if ¬hasToken then []
  else
    let deps_to_check := if maxDeps = 0 then deps else deps.take maxDeps
    deps_to_check.flatMap fun d =>
      (gh d.name).map fun a =>
        { vtype := "GitHub Advisory", id := a.ghsaId, package := d.name,
          line := none,
          severity := pyUpper (a.severity.getD "Unknown"),
          description := truncDesc maxDescLen a.summary }

/-- The issue synthesized from a vulnerability record
(`scan_file` lines 943–953). -/
def vulnToIssue (v : Vuln) : Issue :=
  { itype := some "vulnerability",
    severity := v.severity,
    description := v.id ++ ": " ++ v.description,
    package := some v.package,
    vulnerability_id := some v.id,
    source := some v.vtype,
    line := v.line.getD 1,
    compliance_violations := ["Security"] }

/-! ## File classification (`detect_language_and_framework`, lines 319–341) -/

/-- The extension of `os.path.splitext`: the suffix from the last dot of
the basename, unless the basename consists of leading dots only. -/
def splitextExt (p : String) : String :=
  let base := afterLastChar '/' p.data
  let core := base.dropWhile (· = '.')
  if core.contains '.' then
    (⟨'.' :: (core.reverse.takeWhile (· ≠ '.')).reverse⟩ : String)
  else ""

/-- The closed extension→language table (lines 321–326). -/
def ext_map : List (String × String) :=
  [(".py", "Python"), (".js", "JavaScript"), (".ts", "TypeScript"),
   (".tf", "Terraform"), (".tfvars", "Terraform"),
   (".yaml", "Kubernetes"), (".yml", "Kubernetes"),
   (".java", "Java"), (".go", "Go"), (".sh", "Shell")]

/-- `detect_language_and_framework`: Dockerfile special case first, then
the extension table (default `Unknown`); one framework sniff for Python. -/
def detect_language_and_framework (filepath code : String) :
    String × Option String :=
  let language :=
    if endsWithStr "Dockerfile" filepath
        || containsSubStr "dockerfile" (pyLower filepath) then "Docker"
    else (assocGet ext_map (splitextExt filepath)).getD "Unknown"
  let framework :=
    if language = "Python" then
      if containsSubStr "django" (pyLower code) then some "Django"
      else if containsSubStr "flask" (pyLower code) then some "Flask"
      else if containsSubStr "fastapi" (pyLower code) then some "FastAPI"
      else none
    else none
  (language, framework)

/-! ## Dependency extraction (`extract_dependencies`, lines 634–677) -/

/-- Either quote character, the `["\']` class of the regexes. -/
def isQuote (c : Char) : Bool := c = '"' || c = '\''

/-- `source\s*=\s*["\']([^"\']+)["\']` tried at one position. -/
def tfSourceAt (s : List Char) : Option (List Char) :=
  match eatLit "source".data s with
  | none => none
  | some r1 =>
    match eatWs0 r1 with
    | '=' :: r2 =>
      match eatWs0 r2 with
      | q :: r3 =>
        if isQuote q then
          let t := r3.takeWhile (fun c => ¬isQuote c)
          if t.isEmpty then none
          else if (r3.drop t.length).isEmpty then none else some t
        else none
      | [] => none
    | _ => none

/-- Terraform dependency of one line (gated on `'source' in line and
'=' in line`); the name is `group(1).split('/')[-1]`. -/
def tfDepOfLine (i : Nat) (line : List Char) : Option Dep :=
  if containsSubL "source".data line && line.contains '=' then
    match scanFor tfSourceAt line with
    | some g => some ⟨⟨afterLastChar '/' g⟩, i⟩
    | none => none
  else none

/-- `image:\s*["\']?([^"\'\s]+)["\']?` tried at one position. -/
def yamlImageAt (s : List Char) : Option (List Char) :=
  match eatLit "image:".data s with
  | none => none
  | some r1 =>
    let r2 := eatWs0 r1
    let r3 := match r2 with
      | c :: rest => if isQuote c then rest else r2
      | [] => r2
    let t := r3.takeWhile (fun c => ¬isQuote c && ¬isPyWs c)
    if t.isEmpty then none else some t

/-- Image dependency of one YAML line; name is
`group(1).split(':')[0].split('/')[-1]`. -/
def yamlDepOfLine (i : Nat) (line : List Char) : Option Dep :=
  if containsSubL "image:".data line then
    match scanFor yamlImageAt line with
    | some g => some ⟨⟨afterLastChar '/' (beforeFirstChar ':' g)⟩, i⟩
    | none => none
  else none

/-- The lazy `.*?["\']([^"\']+)["\']` tail of the JS require/import
regex: the first quote position from which a non-empty quoted token
closes. -/
def jsQuotedFrom : List Char → Option (List Char × List Char)
  | [] => none
  | c :: cs =>
    if isQuote c then
      let t := cs.takeWhile (fun d => ¬isQuote d)
      if t.isEmpty then jsQuotedFrom cs
      else
        match cs.drop t.length with
        | _ :: rest => some (t, rest)
        | [] => jsQuotedFrom cs
    else jsQuotedFrom cs

/-- `(?:require|import).*?["\']([^"\']+)["\']` tried at one position,
returning the group and the rest after the match (for `findall`). -/
def jsReqAt (s : List Char) : Option (List Char × List Char) :=
  match eatLit "require".data s with
  | some r1 => jsQuotedFrom r1
  | none =>
    match eatLit "import".data s with
    | some r1 => jsQuotedFrom r1
    | none => none

/-- `re.findall`: non-overlapping leftmost matches, resuming after each
match end.  The fuel bounds the recursion; every successful match of the
matchers used here consumes at least one character, so `length + 1` fuel
is never exhausted. -/
def findAllGo {α : Type} (m : List Char → Option (α × List Char)) :
    Nat → List Char → List α
  | 0, _ => []
  | _ + 1, [] => []
  | f + 1, c :: cs =>
    match m (c :: cs) with
    | some (a, rest) => a :: findAllGo m f rest
    | none => findAllGo m f cs

/-- JS dependencies of one line: every match whose module does not start
with `./`. -/
def jsDepsOfLine (i : Nat) (line : List Char) : List Dep :=
  ((findAllGo jsReqAt (line.length + 1) line).filter
      (fun g => ¬startsWithL "./".data g)).map (fun g => ⟨⟨g⟩, i⟩)

/-- `line.strip().upper().startswith('FROM')`. -/
def lineIsFrom (line : List Char) : Bool :=
  startsWithL "FROM".data ((pyStripL line).map pyUpperChar)

/-- Case-insensitive literal (the `re.IGNORECASE` fragments; ASCII). -/
def eatLitCI (lit s : List Char) : Option (List Char) :=
  if (s.take lit.length).map pyLowerChar = lit then some (s.drop lit.length)
  else none

/-- `FROM\s+([^\s]+)` (IGNORECASE) tried at one position. -/
def fromAt (s : List Char) : Option (List Char) :=
  match eatLitCI "from".data s with
  | none => none
  | some r1 =>
    match eatWs1 r1 with
    | none => none
    | some r2 =>
      let t := r2.takeWhile (fun c => ¬isPyWs c)
      if t.isEmpty then none else some t

/-- Docker base-image dependency of one line. -/
def dockerDepOfLine (i : Nat) (line : List Char) : Option Dep :=
  if lineIsFrom line then
    match scanFor fromAt line with
    | some g => some ⟨⟨afterLastChar '/' (beforeFirstChar ':' g)⟩, i⟩
    | none => none
  else none

/-- `extract_dependencies` (lines 634–677): per-extension scanners over
the `'\n'`-split lines with 1-based numbering. -/
def extract_dependencies (code filepath : String) : List Dep :=
  let lines := withLineNumbers (splitLinesL code.data)
  if endsWithStr ".tf" filepath then
    lines.filterMap (fun p => tfDepOfLine p.1 p.2)
  else if endsWithStr ".yaml" filepath || endsWithStr ".yml" filepath then
    lines.filterMap (fun p => yamlDepOfLine p.1 p.2)
  else if endsWithStr ".js" filepath then
    lines.flatMap (fun p => jsDepsOfLine p.1 p.2)
  else if endsWithStr "Dockerfile" filepath
      || containsSubStr "dockerfile" (pyLower filepath) then
    lines.filterMap (fun p => dockerDepOfLine p.1 p.2)
  else []

/-! ## Version pinning (`check_version_pinning`, lines 857–893) -/

/-- The operator substrings whose presence anywhere in a line exempts it. -/
def vpOps : List String := ["@", "^", "~", ">=", "<=", "=="]

/-- `require\(["\']([^"\']+)["\']\)` tried at one position. -/
def jsRequireCallAt (s : List Char) : Option (List Char) :=
  match eatLit "require(".data s with
  | none => none
  | some r1 =>
    match r1 with
    | q :: r2 =>
      if isQuote q then
        let t := r2.takeWhile (fun c => ¬isQuote c)
        if t.isEmpty then none
        else
          match r2.drop t.length with
          | _ :: ')' :: _ => some t
          | _ => none
      else none
    | [] => none

/-- `check_version_pinning`: unpinned `require` modules (MEDIUM) for
`.js`, untagged `FROM` images (HIGH) for files ending in `Dockerfile`. -/
def check_version_pinning (code filepath : String) : List Issue :=
  let lines := withLineNumbers (splitLinesL code.data)
  if endsWithStr ".js" filepath then
    lines.filterMap fun p =>
      if containsSubL "require(".data p.2
          && ¬(vpOps.any (fun op => containsSubL op.data p.2)) then
        match scanFor jsRequireCallAt p.2 with
        | some g =>
          if ¬startsWithL "./".data g then
            some { itype := some "version_pinning", severity := "MEDIUM",
                   line := p.1,
                   description := "Dependency " ++ (⟨g⟩ : String) ++
                     " not version pinned - security risk",
                   package := some ⟨g⟩,
                   compliance_violations := ["Security", "Supply Chain"] }
          else none
        | none => none
      else none
  else if endsWithStr "Dockerfile" filepath then
    lines.filterMap fun p =>
      if lineIsFrom p.2 && ¬p.2.contains ':' then
        match scanFor fromAt p.2 with
        | some g =>
          some { itype := some "version_pinning", severity := "HIGH",
                 line := p.1,
                 description := "Docker image " ++ (⟨g⟩ : String) ++
                   " not version pinned - security risk",
                 package := some ⟨g⟩,
                 compliance_violations := ["Security", "Supply Chain"] }
        | none => none
      else none
  else []

/-! ## Fix-path helpers of `scan_file` -/

/-- `basic_validation` (lines 480–495): a stripped length below 10 fails;
Python code goes through CPython `compile` (the external parameter
`pythonOk`); anything else passes iff the stripped length exceeds 10. -/
def basic_validation (pythonOk : String → Bool) (fixed_code language : String) :
    Bool :=
  if (pyStrip fixed_code).length < 10 then false
  else if language = "Python" then pythonOk fixed_code
  else decide ((pyStrip fixed_code).length > 10)

/-- One line of the issues description in the fix prompt (line 599–603). -/
def issueDescLine (i : Issue) : String :=
  "Line " ++ toString i.line ++ ": " ++ i.description ++ " (" ++ i.severity ++
    ") - Violates: " ++ String.intercalate ", " i.compliance_violations

/-- The `compliance_fix` prompt (lines 605–620). -/
def fixPrompt (code : String) (issues : List Issue) (language : String)
    (framework : Option String) : String :=
  let framework_text := match framework with
    | some f => "/" ++ f
    | none => ""
  "Fix ALL security and compliance violations in this " ++ language ++
    framework_text ++ " code.\n\nIssues to fix:\n" ++
    String.intercalate "\n" (issues.map issueDescLine) ++
    "\n\nApply these compliance standards:\n- PCI-DSS: Encrypt cardholder data, secure transmission, access controls\n- SOC2: Implement security controls, logging, monitoring\n- HIPAA: Protect PHI with encryption, access controls, audit trails\n- GDPR: Data protection by design, consent mechanisms, data minimization\n- OWASP: Prevent injection, secure authentication, proper error handling\n\nOriginal code:\n" ++
    code ++
    "\n\nReturn ONLY the complete fixed code that meets all compliance requirements:"

/-- Python `\w` over ASCII. -/
def isWordChar (c : Char) : Bool :=
  ('a' ≤ c ∧ c ≤ 'z') || ('A' ≤ c ∧ c ≤ 'Z') || ('0' ≤ c ∧ c ≤ '9') || c = '_'

/-- A line matched by `^```[\w]*\n` (MULTILINE): exactly backticks plus
word characters; the final line never matches (no following newline). -/
def isFenceLine (l : List Char) : Bool :=
  startsWithL "```".data l && (l.drop 3).all isWordChar

/-- Drop fence lines, keeping the final line unconditionally. -/
def cleanFenceLinesAux : List (List Char) → List (List Char)
  | [] => []
  | [l] => [l]
  | l :: ls => if isFenceLine l then cleanFenceLinesAux ls
               else l :: cleanFenceLinesAux ls

/-- `re.sub(r'^```[\w]*\n', '', fixed, flags=re.MULTILINE)` (line 628). -/
def cleanFenceLines (s : List Char) : List Char :=
  joinSep ['\n'] (cleanFenceLinesAux (splitLinesL s))

/-- `re.sub(r'\n```$', '', fixed)` (line 629): `$` without MULTILINE
matches only at the end or just before a final newline. -/
def cleanEndFence (s : List Char) : List Char :=
  if "\n```".data.isSuffixOf s then s.take (s.length - 4)
  else if "\n```\n".data.isSuffixOf s then s.take (s.length - 5) ++ ['\n']
  else s

/-- `re.sub(r'^Here.*?:\s*', '', fixed, flags=re.IGNORECASE)` (line 630):
anchored at the start of the string; `.` does not cross a newline, `\s*`
does. -/
def cleanHere (s : List Char) : List Char :=
  if (s.take 4).map pyLowerChar = "here".data then
    let rest := s.drop 4
    let pre := rest.takeWhile (fun c => c ≠ ':' && c ≠ '\n')
    match rest.drop pre.length with
    | ':' :: r => eatWs0 r
    | _ => s
  else s

/-- `compliance_fix` (lines 595–632): the oracle outcome for the fix
prompt (`fixOracle`, external) is cleaned of fences and prefix prose and
stripped; a failed or empty oracle response yields `None`. -/
def compliance_fix (fixOracle : String → Option String) (code : String)
    (issues : List Issue) (language : String) (framework : Option String) :
    Option String :=
  match fixOracle (fixPrompt code issues language framework) with
  | none => none
  | some fixedRaw =>
    if fixedRaw = "" then none
    else some (pyStrip ⟨cleanHere (cleanEndFence (cleanFenceLines fixedRaw.data))⟩)

/-- `fix_vulnerabilities` (lines 821–855): annotate the offending
dependency sites with TODO comments, per file type. -/
def fix_vulnerabilities (code : String) (vulnIssues : List Issue)
    (filepath : String) : String :=
  vulnIssues.foldl (fun fixed_code v =>
    let package := v.package.getD "None"
    let vuln_id := v.vulnerability_id.getD "None"
    if endsWithStr ".js" filepath then
      let patA := "require('" ++ package ++ "')"
      let patB := "require(\"" ++ package ++ "\")"
      if containsSubStr patA fixed_code then
        pyReplace fixed_code patA
          (patA ++ " // TODO: Update " ++ package ++ " to fix " ++ vuln_id)
      else if containsSubStr patB fixed_code then
        pyReplace fixed_code patB
          (patB ++ " // TODO: Update " ++ package ++ " to fix " ++ vuln_id)
      else fixed_code
    else if endsWithStr "Dockerfile" filepath
        || containsSubStr "dockerfile" (pyLower filepath) then
      let ls := splitLinesL fixed_code.data
      ⟨joinSep ['\n'] (ls.map fun l =>
        if lineIsFrom l && containsSubL package.data l then
          l ++ (" # TODO: Update " ++ package ++ " base image to fix " ++ vuln_id).data
        else l)⟩
    else if endsWithStr ".yaml" filepath || endsWithStr ".yml" filepath then
      let ls := splitLinesL fixed_code.data
      ⟨joinSep ['\n'] (ls.map fun l =>
        if containsSubL "image:".data l && containsSubL package.data l then
          l ++ (" # TODO: Update " ++ package ++ " image to fix " ++ vuln_id).data
        else l)⟩
    else fixed_code) code

/-! ## `scan_file` (lines 895–1011) -/

/-- The external collaborators of one scan, all quantified over in the
theorems: `detect` is the issue list `compliance_detect` obtains from the
oracle's (free-form) response for a file; `fixOracle` is the oracle
outcome `compliance_fix` receives for its prompt; `nvd`/`gh` are the
advisory feeds; `pythonOk` is CPython's `compile` check; `kbOk` is
whether the knowledge-base retrieval produced real guidance, and
`requireKb` the `REQUIRE_KB` policy flag. -/
structure ScanEnv where
  detect : String → String → List Issue
  kbOk : Bool
  requireKb : Bool
  fixOracle : String → Option String
  nvd : String → List CveRecord
  gh : String → List Advisory
  hasGithubToken : Bool
  maxCveDeps : Nat := 0
  maxGithubDeps : Nat := 0
  maxDescLen : Nat := 500
  pythonOk : String → Bool

/-- `compliance_detect` (lines 388–478) at the granularity the claims
need: when the KB is unavailable and `REQUIRE_KB` is set it returns `[]`
before ever invoking the model (lines 400–403); otherwise it builds the
prompt and makes exactly one `call_ai_with_compliance` attempt, whose
parsed outcome is `detect`.  The second component counts model-invocation
attempts. -/
def compliance_detect_model (env : ScanEnv) (filepath code : String) :
    List Issue × Nat :=
  if ¬env.kbOk && env.requireKb then ([], 0)
  else (env.detect filepath code, 1)

/-- Vulnerabilities of one file (lines 916–931): nothing is looked up
when no dependencies were extracted. -/
def scanVulns (env : ScanEnv) (code filepath : String) : List Vuln :=
  let deps := extract_dependencies code filepath
  if deps.isEmpty then []
  else
    check_cve_vulnerabilities env.nvd env.maxCveDeps env.maxDescLen deps
      ++ check_github_advisories env.gh env.hasGithubToken env.maxGithubDeps
          env.maxDescLen deps

/-- `list(set(...))` of the issues' compliance violations (lines 962–964;
the embedding fixes first-occurrence order where CPython's set order is
unspecified). -/
def complianceViolationsOf (issues : List Issue) : List String :=
  (issues.flatMap (fun i => i.compliance_violations)).dedup

/-- Outcome of the auto-fix section (lines 969–998). -/
structure FixOutcome where
  written : Option String
  fixAttempts : Nat
  fixedFlag : Bool
  crashed : Bool

/-- The auto-fix section: compliance issues are sent to `compliance_fix`
(one oracle attempt); a `None` fix result combined with vulnerability
issues crashes `fix_vulnerabilities` (an uncaught exception — these lines
are outside the function's `try`); otherwise the candidate passes the
write gate `fixed_code and len(fixed_code) > 50 and fixed_code != code`
plus `basic_validation` before being written. -/
def autoFixStep (env : ScanEnv) (code : String) (issues : List Issue)
    (language : String) (framework : Option String) (filepath : String) :
    FixOutcome :=
  let compliance_issues := issues.filter (fun i => i.itype ≠ some "vulnerability")
  let vulnerability_issues := issues.filter (fun i => i.itype = some "vulnerability")
  let fixStage : Option String × Nat × Bool :=
    if compliance_issues.isEmpty then (some code, 0, false)
    else
      match compliance_fix env.fixOracle code compliance_issues language framework with
      | none => (none, 1, ¬vulnerability_issues.isEmpty)
      | some fc => (some fc, 1, false)
  match fixStage with
  | (none, n, crashed) =>
    { written := none, fixAttempts := n, fixedFlag := false, crashed := crashed }
  | (some fc0, n, _) =>
    let fixed_code := if vulnerability_issues.isEmpty then fc0
                      else fix_vulnerabilities fc0 vulnerability_issues filepath
    if fixed_code ≠ "" ∧ fixed_code.length > 50 ∧ fixed_code ≠ code
        ∧ basic_validation env.pythonOk fixed_code language then
      { written := some fixed_code, fixAttempts := n, fixedFlag := true,
        crashed := false }
    else
      { written := none, fixAttempts := n, fixedFlag := false, crashed := false }

/-- Result of one `scan_file` call: the returned value, the number of
model-invocation attempts it made, the cache and file system afterwards,
and whether an uncaught exception escaped (`exn`). -/
structure ScanOut where
  result : Option ScanResult
  oracleAttempts : Nat
  cache : Cache
  fsAfter : FS
  exn : Bool

/-- `scan_file(filepath, auto_fix)` (lines 895–1011).  The cache is
consulted only when `auto_fix` is off (lines 898–902), and a truthy
cached value is returned as-is with no oracle work; a read failure
returns `None` (caught by the `try` around cache check and read); files
classified `Unknown` return `None` without a cache update; otherwise the
issue list is assembled, the optional fix applied, and the final result —
even `None` for a clean file — is stored under the *current* content
digest (lines 1009–1010, after any write). -/
def scan_file (env : ScanEnv) (hashFn : String → String) (cache : Cache)
    (fs : FS) (filepath : String) (auto_fix : Bool) : ScanOut :=
  let hit := if auto_fix then none else get_cached_result hashFn cache fs filepath
  match hit with
  | some r => ⟨some r, 0, cache, fs, false⟩
  | none =>
    match fs filepath with
    | none => ⟨none, 0, cache, fs, false⟩
    | some code =>
      let lf := detect_language_and_framework filepath code
      if lf.1 = "Unknown" then ⟨none, 0, cache, fs, false⟩
      else
        let det := compliance_detect_model env filepath code
        let issues := det.1 ++ check_version_pinning code filepath
            ++ (scanVulns env code filepath).map vulnToIssue
        if issues.isEmpty then
          ⟨none, det.2, update_file_cache hashFn cache fs filepath none, fs, false⟩
        else
          let cv := complianceViolationsOf issues
          if auto_fix then
            let fo := autoFixStep env code issues lf.1 lf.2 filepath
            if fo.crashed then ⟨none, det.2 + fo.fixAttempts, cache, fs, true⟩
            else
              let fs' : FS := match fo.written with
                | some fc => fun p => if p = filepath then some fc else fs p
                | none => fs
              let result : Option ScanResult :=
                some ⟨filepath, lf.1, lf.2, issues, fo.fixedFlag, cv⟩
              ⟨result, det.2 + fo.fixAttempts,
               update_file_cache hashFn cache fs' filepath result, fs', false⟩
          else
            let result : Option ScanResult :=
              some ⟨filepath, lf.1, lf.2, issues, false, cv⟩
            ⟨result, det.2, update_file_cache hashFn cache fs filepath result,
             fs, false⟩

/-! ## Run-level aggregation and exit code (`run`, lines 1040–1182) -/

/-- The `by_severity` dictionary. -/
def SevMap : Type := List (String × Nat)

/-- `d.get(k, default)`. -/
def mapGetD (m : SevMap) (k : String) (d : Nat) : Nat := (assocGet m k).getD d

/-- `by_severity[s] = by_severity.get(s, 0) + 1` (line 1100): the key is
the issue's severity string, case-sensitively. -/
def bumpSeverity (m : SevMap) (s : String) : SevMap :=
  assocSet m s (mapGetD m s 0 + 1)

/-- Line 1097. -/
def by_severity_init : SevMap :=
  [("critical", 0), ("high", 0), ("medium", 0), ("low", 0)]

/-- Lines 1097–1100: tally every issue of every collected result. -/
def compute_by_severity (results : List ScanResult) : SevMap :=
  results.foldl (fun m r =>
    r.issues.foldl (fun m' i => bumpSeverity m' i.severity) m) by_severity_init

/-- Number of issues whose severity is exactly `k`. -/
def countSevIssues (k : String) (results : List ScanResult) : Nat :=
  (results.map (fun r => r.issues.countP (fun i => i.severity = k))).sum

/-- The exit decision (lines 1172–1182): `1` iff `by_severity['critical']`
is positive, the `GITHUB_ACTIONS` environment variable is the string
`'true'`, and auto-fix is off; `0` in every other case. -/
def run_exit_code (results : List ScanResult) (githubActionsEnv : Option String)
    (auto_fix : Bool) : Nat :=
  if mapGetD (compute_by_severity results) "critical" 0 > 0 then
    if githubActionsEnv = some "true" && ¬auto_fix then 1 else 0
  else 0

/-! ## Lemmas: association lists (dict semantics) -/

theorem assocGet_map_set {α : Type} (m : List (String × α)) (k : String) (v : α)
    (hk : m.any (fun kv => kv.1 = k) = true) :
    assocGet (m.map (fun kv => if kv.1 = k then (k, v) else kv)) k = some v := by
  induction m with
  | nil => simp at hk
  | cons a m ih =>
    by_cases ha : a.1 = k
    · simp only [List.map_cons, if_pos ha, assocGet]
      simp
    · have hk' : m.any (fun kv => kv.1 = k) = true := by
        rcases (List.any_cons ▸ hk : _) with h
        rw [Bool.or_eq_true] at h
        rcases h with h | h
        · exact absurd (of_decide_eq_true h) ha
        · exact h
      simp only [List.map_cons, if_neg ha, assocGet]
      exact ih hk'

theorem assocGet_append_right {α : Type} (m₁ m₂ : List (String × α)) (k : String)
    (hk : m₁.any (fun kv => kv.1 = k) = false) :
    assocGet (m₁ ++ m₂) k = assocGet m₂ k := by
  induction m₁ with
  | nil => rfl
  | cons a m ih =>
    rw [List.any_cons, Bool.or_eq_false_iff] at hk
    have ha : ¬(a.1 = k) := by simpa using hk.1
    show (if a.1 = k then some a.2 else assocGet (m ++ m₂) k) = assocGet m₂ k
    rw [if_neg ha, ih hk.2]

theorem assocGet_set_self {α : Type} (m : List (String × α)) (k : String) (v : α) :
    assocGet (assocSet m k v) k = some v := by
  unfold assocSet
  split
  · next h => exact assocGet_map_set m k v h
  · next h =>
    rw [assocGet_append_right m [(k, v)] k (Bool.eq_false_iff.mpr h)]
    simp [assocGet]

theorem assocGet_map_ne {α : Type} (m : List (String × α)) (k k' : String) (v : α)
    (hne : k' ≠ k) :
    assocGet (m.map (fun kv => if kv.1 = k then (k, v) else kv)) k' =
      assocGet m k' := by
  induction m with
  | nil => rfl
  | cons a m ih =>
    by_cases ha : a.1 = k
    · have h1 : ¬(k = k') := fun h => hne h.symm
      have h2 : ¬(a.1 = k') := fun h => hne (h ▸ ha)
      simp only [List.map_cons, if_pos ha, assocGet]
      rw [if_neg h1, if_neg h2, ih]
    · by_cases ha' : a.1 = k'
      · simp only [List.map_cons, if_neg ha, assocGet]
        rw [if_pos ha', if_pos ha']
      · simp only [List.map_cons, if_neg ha, assocGet]
        rw [if_neg ha', if_neg ha', ih]

theorem assocGet_append_ne {α : Type} (m : List (String × α)) (k k' : String)
    (v : α) (hne : k' ≠ k) :
    assocGet (m ++ [(k, v)]) k' = assocGet m k' := by
  induction m with
  | nil => simp [assocGet, Ne.symm hne]
  | cons a m ih =>
    by_cases ha' : a.1 = k'
    · simp [assocGet, ha']
    · simpa [assocGet, ha'] using ih

theorem assocGet_set_ne {α : Type} (m : List (String × α)) (k k' : String) (v : α)
    (hne : k' ≠ k) : assocGet (assocSet m k v) k' = assocGet m k' := by
  unfold assocSet
  split
  · exact assocGet_map_ne m k k' v hne
  · exact assocGet_append_ne m k k' v hne

/-! ## Lemmas: severity tally -/

theorem mapGetD_bump (m : SevMap) (s k : String) :
    mapGetD (bumpSeverity m s) k 0 =
      mapGetD m k 0 + (if s = k then 1 else 0) := by
  unfold bumpSeverity mapGetD
  by_cases h : s = k
  · subst h; rw [assocGet_set_self]; simp
  · rw [assocGet_set_ne m s k _ (fun hk => h hk.symm)]; simp [h]

theorem mapGetD_fold_issues (issues : List Issue) (k : String) :
    ∀ m : SevMap,
      mapGetD (issues.foldl (fun m' i => bumpSeverity m' i.severity) m) k 0 =
        mapGetD m k 0 + issues.countP (fun i => i.severity = k) := by
  induction issues with
  | nil => intro m; simp
  | cons i issues ih =>
    intro m
    simp only [List.foldl_cons, List.countP_cons]
    rw [ih, mapGetD_bump]
    by_cases h : i.severity = k
    · simp [h]
      omega
    · simp [h]

theorem mapGetD_fold_results (results : List ScanResult) (k : String) :
    ∀ m : SevMap,
      mapGetD (results.foldl
          (fun m r => r.issues.foldl (fun m' i => bumpSeverity m' i.severity) m) m) k 0 =
        mapGetD m k 0 + countSevIssues k results := by
  induction results with
  | nil => intro m; simp [countSevIssues]
  | cons r results ih =>
    intro m
    simp only [List.foldl_cons]
    rw [ih, mapGetD_fold_issues]
    simp only [countSevIssues, List.map_cons, List.sum_cons]
    omega

theorem by_severity_critical (results : List ScanResult) :
    mapGetD (compute_by_severity results) "critical" 0 =
      countSevIssues "critical" results := by
  unfold compute_by_severity
  rw [mapGetD_fold_results]
  show 0 + _ = _
  omega

/-! ## Lemmas: uppercase severities -/

theorem charOfNat_toNat (m : Nat) (h : m < 0xd800) : (Char.ofNat m).toNat = m := by
  have hv : Nat.isValidChar m := Or.inl h
  simp only [Char.ofNat, dif_pos hv]
  rfl

theorem pyUpperChar_ne_lower (c : Char) (t : Char) (ht : 'a' ≤ t ∧ t ≤ 'z') :
    pyUpperChar c ≠ t := by
  unfold pyUpperChar
  have htn1 : 97 ≤ t.toNat := ht.1
  have htn2 : t.toNat ≤ 122 := ht.2
  split
  · next h =>
    obtain ⟨h1, h2⟩ := h
    have hn1 : 97 ≤ c.toNat := h1
    have hn2 : c.toNat ≤ 122 := h2
    intro hc
    have heq : (Char.ofNat (c.toNat - 32)).toNat = t.toNat := by rw [hc]
    rw [charOfNat_toNat (c.toNat - 32) (by omega)] at heq
    omega
  · next h =>
    intro hc
    exact h (hc ▸ ht)

theorem pyUpper_ne_critical (s : String) : pyUpper s ≠ "critical" := by
  intro h
  have hd : (pyUpper s).data = "critical".data := by rw [h]
  unfold pyUpper at hd
  cases hs : s.data with
  | nil =>
    rw [hs] at hd
    exact absurd hd (by decide)
  | cons c cs =>
    rw [hs] at hd
    simp only [List.map_cons] at hd
    have : pyUpperChar c = 'c' := by
      have := congrArg (fun l => l.headD ' ') hd
      simpa using this
    exact pyUpperChar_ne_lower c 'c' ⟨by decide, by decide⟩ this

theorem cvss_severity_ne_critical (q : Option ℚ) :
    _get_severity_from_cvss q ≠ "critical" := by
  unfold _get_severity_from_cvss
  rcases q with _ | s
  · decide
  · show (if s ≥ 9 then "CRITICAL" else if s ≥ 7 then "HIGH"
      else if s ≥ 4 then "MEDIUM" else "LOW") ≠ "critical"
    by_cases h9 : s ≥ 9
    · rw [if_pos h9]; decide
    · rw [if_neg h9]
      by_cases h7 : s ≥ 7
      · rw [if_pos h7]; decide
      · rw [if_neg h7]
        by_cases h4 : s ≥ 4
        · rw [if_pos h4]; decide
        · rw [if_neg h4]; decide

/-! ## Lemmas: extraction-method failure conditions -/

theorem containsSubL_cons (pat : List Char) (c : Char) (cs : List Char) :
    containsSubL pat (c :: cs) = (pat.isPrefixOf (c :: cs) || containsSubL pat cs) := rfl

theorem hasKeyBrace_of_not_contains (s : List Char)
    (h : containsSubL m1key s = false) : hasKeyBrace s = false := by
  induction s with
  | nil => rfl
  | cons c cs ih =>
    rw [containsSubL_cons, Bool.or_eq_false_iff] at h
    unfold hasKeyBrace
    rw [h.1, ih h.2]
    rfl

theorem method1Span_of_not_contains (s : List Char)
    (h : containsSubL m1key s = false) : method1Span s = none := by
  induction s with
  | nil => rfl
  | cons c cs ih =>
    rw [containsSubL_cons, Bool.or_eq_false_iff] at h
    unfold method1Span
    rw [hasKeyBrace_of_not_contains cs h.2]
    simp [ih h.2]

theorem method1_of_not_contains (txt : List Char)
    (h : containsSubL m1key (cleanTicks txt) = false) : method1 txt = none := by
  unfold method1
  rw [method1Span_of_not_contains _ h]

theorem scanFor_m2At_of_not_contains (txt : List Char)
    (h : containsSubL m1key txt = false) : scanFor m2At txt = none := by
  induction txt with
  | nil => rfl
  | cons c cs ih =>
    rw [containsSubL_cons, Bool.or_eq_false_iff] at h
    have h1 : m2At (c :: cs) = none := by
      simp [m2At, eatLit, h.1]
    simp [scanFor, h1, ih h.2]

theorem method2_of_not_contains (txt : List Char)
    (h : containsSubL m1key txt = false) : method2 txt = none := by
  unfold method2
  rw [scanFor_m2At_of_not_contains txt h]

/-! ## Lemmas: the replace/split characterization -/

theorem splitGo_nil (pat : List Char) (k : Nat) : splitGo pat k [] = [[]] := by
  cases k <;> rfl

theorem splitGo_succ (pat : List Char) (k : Nat) (c : Char) (cs : List Char) :
    splitGo pat (k + 1) (c :: cs) = splitGo pat k cs := rfl

theorem splitGo_zero (pat : List Char) (c : Char) (cs : List Char) :
    splitGo pat 0 (c :: cs) =
      if pat.isPrefixOf (c :: cs) then [] :: splitGo pat (pat.length - 1) cs
      else consHead c (splitGo pat 0 cs) := rfl

theorem replaceGo_nil (pat rep : List Char) (k : Nat) : replaceGo pat rep k [] = [] := by
  cases k <;> rfl

theorem replaceGo_succ (pat rep : List Char) (k : Nat) (c : Char) (cs : List Char) :
    replaceGo pat rep (k + 1) (c :: cs) = replaceGo pat rep k cs := rfl

theorem replaceGo_zero (pat rep : List Char) (c : Char) (cs : List Char) :
    replaceGo pat rep 0 (c :: cs) =
      if pat.isPrefixOf (c :: cs) then rep ++ replaceGo pat rep (pat.length - 1) cs
      else c :: replaceGo pat rep 0 cs := rfl

theorem splitGo_shift (pat : List Char) :
    ∀ (k : Nat) (s : List Char), splitGo pat k s = splitAllL pat (s.drop k) := by
  intro k s
  induction s generalizing k with
  | nil => rw [splitGo_nil, List.drop_nil]; rfl
  | cons c cs ih =>
    cases k with
    | zero => rfl
    | succ j => rw [splitGo_succ, List.drop_succ_cons, ih]

theorem replaceGo_shift (pat rep : List Char) :
    ∀ (k : Nat) (s : List Char), replaceGo pat rep k s = replaceAllL pat rep (s.drop k) := by
  intro k s
  induction s generalizing k with
  | nil => rw [replaceGo_nil, List.drop_nil]; rfl
  | cons c cs ih =>
    cases k with
    | zero => rfl
    | succ j => rw [replaceGo_succ, List.drop_succ_cons, ih]

theorem consHead_ne_nil (c : Char) (ps : List (List Char)) : consHead c ps ≠ [] := by
  cases ps <;> simp [consHead]

theorem splitAllL_ne_nil (pat : List Char) (s : List Char) : splitAllL pat s ≠ [] := by
  unfold splitAllL
  cases s with
  | nil => simp [splitGo_nil]
  | cons c cs =>
    rw [splitGo_zero]
    split
    · simp
    · exact consHead_ne_nil _ _

theorem joinSep_nil_cons (sep : List Char) (ps : List (List Char)) (h : ps ≠ []) :
    joinSep sep ([] :: ps) = sep ++ joinSep sep ps := by
  cases ps with
  | nil => exact absurd rfl h
  | cons p ps' => rfl

theorem joinSep_consHead (sep : List Char) (c : Char) (ps : List (List Char))
    (h : ps ≠ []) : joinSep sep (consHead c ps) = c :: joinSep sep ps := by
  cases ps with
  | nil => exact absurd rfl h
  | cons p ps' =>
    cases ps' with
    | nil => rfl
    | cons q rest => simp [consHead, joinSep]

theorem prefix_decomp {p s : List Char} (h : p.isPrefixOf s = true) :
    s = p ++ s.drop p.length := by
  rw [List.isPrefixOf_iff_prefix] at h
  obtain ⟨t, rfl⟩ := h
  rw [List.drop_left]

theorem splitAllL_cons (pat : List Char) (c : Char) (cs : List Char) :
    splitAllL pat (c :: cs) =
      if pat.isPrefixOf (c :: cs) then
        [] :: splitAllL pat (cs.drop (pat.length - 1))
      else consHead c (splitAllL pat cs) := by
  show splitGo pat 0 (c :: cs) = _
  rw [splitGo_zero, splitGo_shift]
  rfl

theorem replaceAllL_cons (pat rep : List Char) (c : Char) (cs : List Char) :
    replaceAllL pat rep (c :: cs) =
      if pat.isPrefixOf (c :: cs) then
        rep ++ replaceAllL pat rep (cs.drop (pat.length - 1))
      else c :: replaceAllL pat rep cs := by
  show replaceGo pat rep 0 (c :: cs) = _
  rw [replaceGo_zero, replaceGo_shift]
  rfl

theorem joinSep_splitAll_len (pat : List Char) (hp : pat ≠ []) :
    ∀ (n : Nat) (s : List Char), s.length ≤ n →
      joinSep pat (splitAllL pat s) = s := by
  intro n
  induction n with
  | zero =>
    intro s hs
    have h0 : s = [] := List.length_eq_zero.mp (Nat.le_zero.mp hs)
    subst h0; rfl
  | succ m ih =>
    intro s hs
    cases s with
    | nil => rfl
    | cons c cs =>
      rw [splitAllL_cons]
      have hcs : cs.length ≤ m := by simpa using hs
      by_cases hmatch : pat.isPrefixOf (c :: cs) = true
      · rw [if_pos hmatch, joinSep_nil_cons pat _ (splitAllL_ne_nil _ _),
          ih (cs.drop (pat.length - 1))
            (by have := List.length_drop (pat.length - 1) cs; omega)]
        have hdec := prefix_decomp hmatch
        have hlen1 : pat.length - 1 + 1 = pat.length :=
          Nat.succ_pred_eq_of_pos (List.length_pos.mpr hp)
        rw [← hlen1, List.drop_succ_cons] at hdec
        exact hdec.symm
      · rw [if_neg hmatch, joinSep_consHead pat c _ (splitAllL_ne_nil _ _), ih cs hcs]

theorem joinSep_splitAll (pat : List Char) (hp : pat ≠ []) (s : List Char) :
    joinSep pat (splitAllL pat s) = s :=
  joinSep_splitAll_len pat hp s.length s (Nat.le_refl _)

theorem replaceAll_eq_joinSep_len (pat rep : List Char) (_hp : pat ≠ []) :
    ∀ (n : Nat) (s : List Char), s.length ≤ n →
      replaceAllL pat rep s = joinSep rep (splitAllL pat s) := by
  intro n
  induction n with
  | zero =>
    intro s hs
    have h0 : s = [] := List.length_eq_zero.mp (Nat.le_zero.mp hs)
    subst h0; rfl
  | succ m ih =>
    intro s hs
    cases s with
    | nil => rfl
    | cons c cs =>
      rw [replaceAllL_cons, splitAllL_cons]
      have hcs : cs.length ≤ m := by simpa using hs
      by_cases hmatch : pat.isPrefixOf (c :: cs) = true
      · rw [if_pos hmatch, if_pos hmatch,
          joinSep_nil_cons rep _ (splitAllL_ne_nil _ _),
          ih (cs.drop (pat.length - 1))
            (by have := List.length_drop (pat.length - 1) cs; omega)]
      · rw [if_neg hmatch, if_neg hmatch,
          joinSep_consHead rep c _ (splitAllL_ne_nil _ _), ih cs hcs]

theorem replaceAll_eq_joinSep (pat rep : List Char) (hp : pat ≠ []) (s : List Char) :
    replaceAllL pat rep s = joinSep rep (splitAllL pat s) :=
  replaceAll_eq_joinSep_len pat rep hp s.length s (Nat.le_refl _)

theorem splitAll_head_prefix (pat : List Char) (hp : pat ≠ []) (s : List Char)
    (p : List Char) (ps : List (List Char)) (hsplit : splitAllL pat s = p :: ps) :
    p <+: s := by
  have hrec := joinSep_splitAll pat hp s
  rw [hsplit] at hrec
  cases ps with
  | nil => exact hrec ▸ List.prefix_refl p
  | cons q rest =>
    rw [show joinSep pat (p :: q :: rest) = p ++ (pat ++ joinSep pat (q :: rest))
        from by simp [joinSep]] at hrec
    exact hrec ▸ List.prefix_append p _

theorem splitAll_no_occurrence_len (pat : List Char) (hp : pat ≠ []) :
    ∀ (n : Nat) (s : List Char), s.length ≤ n →
      ∀ p ∈ splitAllL pat s, containsSubL pat p = false := by
  have hempty : containsSubL pat [] = false := by
    show pat.isEmpty = false
    simpa [List.isEmpty_iff] using hp
  intro n
  induction n with
  | zero =>
    intro s hs p hmem
    have h0 : s = [] := List.length_eq_zero.mp (Nat.le_zero.mp hs)
    subst h0
    have hp0 : p = [] := by
      have h1 : splitAllL pat ([] : List Char) = [[]] := rfl
      rw [h1] at hmem; simpa using hmem
    subst hp0
    exact hempty
  | succ m ih =>
    intro s hs p hmem
    cases s with
    | nil =>
      have hp0 : p = [] := by
        have h1 : splitAllL pat ([] : List Char) = [[]] := rfl
        rw [h1] at hmem; simpa using hmem
      subst hp0
      exact hempty
    | cons c cs =>
      have hs' : cs.length ≤ m := by simpa using hs
      rw [splitAllL_cons] at hmem
      by_cases hmatch : pat.isPrefixOf (c :: cs) = true
      · rw [if_pos hmatch] at hmem
        rcases List.mem_cons.mp hmem with hcase | hcase
        · subst hcase; exact hempty
        · exact ih (cs.drop (pat.length - 1))
            (by have := List.length_drop (pat.length - 1) cs; omega) p hcase
      · rw [if_neg hmatch] at hmem
        obtain ⟨p₀, ps', hsplit⟩ :
            ∃ p₀ ps', splitAllL pat cs = p₀ :: ps' := by
          rcases hq : splitAllL pat cs with _ | ⟨p₀, ps'⟩
          · exact absurd hq (splitAllL_ne_nil pat cs)
          · exact ⟨p₀, ps', rfl⟩
        rw [hsplit] at hmem
        simp only [consHead, List.mem_cons] at hmem
        rcases hmem with hcase | hcase
        · subst hcase
          rw [containsSubL_cons, Bool.or_eq_false_iff]
          refine ⟨?_, ih cs hs' p₀ (hsplit ▸ List.mem_cons_self p₀ ps')⟩
          by_contra hpre'
          have hpre : pat.isPrefixOf (c :: p₀) = true := by
            cases h' : pat.isPrefixOf (c :: p₀)
            · exact absurd h' hpre'
            · rfl
          have hp₀ : p₀ <+: cs := splitAll_head_prefix pat hp cs p₀ ps' hsplit
          have hfull : pat <+: (c :: cs) := by
            have h1 : pat <+: (c :: p₀) := List.isPrefixOf_iff_prefix.mp hpre
            have h2 : (c :: p₀) <+: (c :: cs) := by
              rw [List.cons_prefix_cons]; exact ⟨rfl, hp₀⟩
            exact h1.trans h2
          exact hmatch (List.isPrefixOf_iff_prefix.mpr hfull)
        · exact ih cs hs' p (hsplit ▸ List.mem_cons_of_mem p₀ hcase)

theorem splitAll_no_occurrence (pat : List Char) (hp : pat ≠ []) (s : List Char) :
    ∀ p ∈ splitAllL pat s, containsSubL pat p = false :=
  splitAll_no_occurrence_len pat hp s.length s (Nat.le_refl _)

/-- The characterization of Python `str.replace` used by the claims: the
input decomposes into the pieces between the non-overlapping occurrences
of the pattern (no piece containing a further occurrence), the input is
the pieces joined by the pattern, and the output is the same pieces
joined by the replacement — every occurrence replaced, the rest
byte-identical. -/
theorem replaceAll_complete (pat rep s : List Char) (hp : pat ≠ []) :
    ∃ pieces : List (List Char), pieces ≠ [] ∧
      (∀ p ∈ pieces, containsSubL pat p = false) ∧
      joinSep pat pieces = s ∧
      replaceAllL pat rep s = joinSep rep pieces :=
  ⟨splitAllL pat s, splitAllL_ne_nil pat s,
    splitAll_no_occurrence pat hp s,
    joinSep_splitAll pat hp s,
    replaceAll_eq_joinSep pat rep hp s⟩

/-! ## Concrete scan environment used by counterexamples and failing-input
evaluations: the oracle reports no issues, all advisory feeds are empty. -/

/-- An environment whose external collaborators all come back empty. -/
def envNoIssues : ScanEnv :=
  { detect := fun _ _ => [], kbOk := true, requireKb := false,
    fixOracle := fun _ => none, nvd := fun _ => [], gh := fun _ => [],
    hasGithubToken := false, pythonOk := fun _ => true }

/-- A one-file file system. -/
def fsAppPy : FS := fun p => if p = "app.py" then some "x = 1\n" else none

/-- A concrete digest function (the theorems hold for every digest
function, so the identity serves as the instantiation). -/
def hashId : String → String := fun s => s

/-- A stored non-empty scan result for `app.py`. -/
def storedResult : ScanResult :=
  { filepath := "app.py", language := "Python", framework := none,
    issues := [{ severity := "high", description := "d" }], fixed := false,
    compliance_violations := [] }

/-! ## Claim theorems -/

/-- C5: the claim says a scan that finds no issues stores the final
result so that a later scan of the unchanged file is a cache hit that
does not re-run analysis.  The code does store the `None` result under
the current content hash (first two conjuncts), but `get_cached_result`
returns that stored `None` and `scan_file`'s `if cached_result:` treats
it as a miss, so the second scan of the unchanged clean file performs a
fresh oracle-backed analysis (one invocation attempt instead of zero):
the stated purpose — avoiding re-scans of unchanged clean files — is
defeated. -/
theorem C5_clean_file_rescans :
    (scan_file envNoIssues hashId ([] : Cache) fsAppPy "app.py" false).result
        = none ∧
    assocGet (scan_file envNoIssues hashId ([] : Cache) fsAppPy "app.py"
        false).cache "app.py" = some ⟨"x = 1\n", none⟩ ∧
    get_cached_result hashId
        (scan_file envNoIssues hashId ([] : Cache) fsAppPy "app.py" false).cache
        fsAppPy "app.py" = none ∧
    (scan_file envNoIssues hashId ([] : Cache) fsAppPy "app.py" false).oracleAttempts
        = 1 ∧
    (scan_file envNoIssues hashId
        (scan_file envNoIssues hashId ([] : Cache) fsAppPy "app.py" false).cache
        fsAppPy "app.py" false).oracleAttempts = 1 :=
  ⟨rfl, rfl, rfl, rfl, rfl⟩

/-- C7 counterexample: a knowledge-context snippet of 20 000 characters —
beyond the ~18 000-character ceiling the claim speaks of — is *not* split
into at least two chunks: `query_kb_for_rules` issues exactly one
retrieval query. -/
theorem C7_counterexample :
    (⟨List.replicate 20000 'a'⟩ : String).length = 20000 ∧
    (kbQueries (⟨List.replicate 20000 'a'⟩ : String) "Python").length = 1 := by
  constructor
  · have h : ∀ l : List Char, (String.mk l).length = l.length := fun _ => rfl
    rw [h, List.length_replicate]
  · rfl

/-- C7 (amended): `query_kb_for_rules` never splits the query.  For every
snippet it issues exactly one retrieval query, built from at most the
first 500 characters of the snippet, so the query length is bounded by
the fixed preamble plus the language name plus 500. -/
theorem C7_amended (code_snippet language : String) :
    kbQueries code_snippet language = [kbQuery code_snippet language] ∧
    (kbQuery code_snippet language).length ≤ language.length + 541 := by
  refine ⟨rfl, ?_⟩
  unfold kbQuery
  have h1 : ∀ a b : String, (a ++ b).length = a.length + b.length :=
    fun a b => String.length_append a b
  rw [h1, h1, h1]
  have h2 : ((⟨code_snippet.data.take 500⟩ : String)).length ≤ 500 := by
    have h3 : ∀ l : List Char, (String.mk l).length = l.length := fun _ => rfl
    rw [h3, List.length_take]
    omega
  have h4 : ("What security rules apply to this " : String).length = 34 := rfl
  have h5 : (" code? " : String).length = 7 := rfl
  omega

/-- C9: the process exit decision of `run` — the exit code is `1` exactly
when the final report contains at least one issue whose severity is the
lowercase string `critical`, the `GITHUB_ACTIONS` environment variable is
`'true'`, and auto-fix is disabled; it is `0` in every other case. -/
theorem C9_exit_code (results : List ScanResult) (gh : Option String)
    (auto_fix : Bool) :
    (run_exit_code results gh auto_fix = 1 ↔
      (0 < countSevIssues "critical" results ∧ gh = some "true" ∧
        auto_fix = false)) ∧
    (run_exit_code results gh auto_fix = 0 ∨
      run_exit_code results gh auto_fix = 1) := by
  unfold run_exit_code
  rw [by_severity_critical]
  constructor
  · constructor
    · intro h
      by_cases hc : countSevIssues "critical" results > 0
      · rw [if_pos hc] at h
        by_cases hg : gh = some "true"
        · by_cases ha : auto_fix
          · simp [hg, ha] at h
          · exact ⟨hc, hg, by simpa using ha⟩
        · simp [hg] at h
      · rw [if_neg hc] at h
        exact absurd h (by decide)
    · rintro ⟨hc, hg, ha⟩
      rw [if_pos hc]
      subst ha
      simp [hg]
  · by_cases hc : countSevIssues "critical" results > 0
    · rw [if_pos hc]
      by_cases hg : (gh = some "true" && ¬auto_fix) = true
      · rw [if_pos hg]; right; rfl
      · rw [if_neg hg]; left; rfl
    · rw [if_neg hc]; left; rfl

/-- Severity of every CVE-synthesized vulnerability is never the
lowercase `critical` key. -/
theorem cve_vulns_not_critical (nvd : String → List CveRecord)
    (maxDeps maxDescLen : Nat) (deps : List Dep) :
    ∀ v ∈ check_cve_vulnerabilities nvd maxDeps maxDescLen deps,
      v.severity ≠ "critical" := by
  intro v hv
  unfold check_cve_vulnerabilities at hv
  simp only [List.mem_flatMap, List.mem_map] at hv
  obtain ⟨d, _, c, _, rfl⟩ := hv
  exact cvss_severity_ne_critical c.cvss

/-- Severity of every GitHub-advisory vulnerability is upper-cased and so
never the lowercase `critical` key. -/
theorem gh_vulns_not_critical (gh : String → List Advisory) (hasToken : Bool)
    (maxDeps maxDescLen : Nat) (deps : List Dep) :
    ∀ v ∈ check_github_advisories gh hasToken maxDeps maxDescLen deps,
      v.severity ≠ "critical" := by
  intro v hv
  unfold check_github_advisories at hv
  split at hv
  · simp at hv
  · simp only [List.mem_flatMap, List.mem_map] at hv
    obtain ⟨d, _, a, _, rfl⟩ := hv
    exact pyUpper_ne_critical _

/-- Tally of one result's issues. -/
theorem countSevIssues_single (k fp lang : String) (fw : Option String)
    (fixed : Bool) (cv : List String) (issues : List Issue) :
    countSevIssues k [⟨fp, lang, fw, issues, fixed, cv⟩] =
      issues.countP (fun i => i.severity = k) := by
  unfold countSevIssues
  simp

/-- C10: vulnerability findings carry uppercase severity labels
(`_get_severity_from_cvss` yields `CRITICAL`/`HIGH`/`MEDIUM`/`LOW`/
`UNKNOWN`; advisory severities are `.upper()`-ed), while the `by_severity`
tally and the exit decision read the lowercase key `critical`; hence the
issues synthesized from any CVE and advisory data never increase
`by_severity['critical']` and on their own always produce exit code 0,
whatever their CVSS scores. -/
theorem C10_vuln_severities (nvd : String → List CveRecord)
    (gh : String → List Advisory) (hasToken : Bool)
    (maxCveDeps maxGhDeps maxDescLen : Nat) (deps : List Dep) :
    (∀ i ∈ ((check_cve_vulnerabilities nvd maxCveDeps maxDescLen deps ++
        check_github_advisories gh hasToken maxGhDeps maxDescLen deps).map
          vulnToIssue),
      i.severity ≠ "critical") ∧
    (∀ m : SevMap,
      mapGetD (((check_cve_vulnerabilities nvd maxCveDeps maxDescLen deps ++
          check_github_advisories gh hasToken maxGhDeps maxDescLen deps).map
            vulnToIssue).foldl
          (fun m' i => bumpSeverity m' i.severity) m) "critical" 0 =
        mapGetD m "critical" 0) ∧
    (∀ (fp lang : String) (fw : Option String) (fixed : Bool)
        (cv : List String) (ghEnv : Option String) (af : Bool),
      run_exit_code
        [⟨fp, lang, fw,
          ((check_cve_vulnerabilities nvd maxCveDeps maxDescLen deps ++
            check_github_advisories gh hasToken maxGhDeps maxDescLen deps).map
              vulnToIssue), fixed, cv⟩] ghEnv af = 0) := by
  have hsev : ∀ i ∈ ((check_cve_vulnerabilities nvd maxCveDeps maxDescLen deps ++
      check_github_advisories gh hasToken maxGhDeps maxDescLen deps).map
        vulnToIssue), i.severity ≠ "critical" := by
    intro i hi
    simp only [List.mem_map, List.mem_append] at hi
    obtain ⟨v, hv, rfl⟩ := hi
    have : v.severity ≠ "critical" := by
      rcases hv with hv | hv
      · exact cve_vulns_not_critical nvd maxCveDeps maxDescLen deps v hv
      · exact gh_vulns_not_critical gh hasToken maxGhDeps maxDescLen deps v hv
    simpa [vulnToIssue] using this
  have hcount : ((check_cve_vulnerabilities nvd maxCveDeps maxDescLen deps ++
      check_github_advisories gh hasToken maxGhDeps maxDescLen deps).map
        vulnToIssue).countP (fun i => i.severity = "critical") = 0 := by
    rw [List.countP_eq_zero]
    intro i hi
    simpa using hsev i hi
  refine ⟨hsev, ?_, ?_⟩
  · intro m
    rw [mapGetD_fold_issues, hcount]
    omega
  · intro fp lang fw fixed cv ghEnv af
    unfold run_exit_code
    rw [by_severity_critical]
    have h0 : countSevIssues "critical"
        [⟨fp, lang, fw,
          ((check_cve_vulnerabilities nvd maxCveDeps maxDescLen deps ++
            check_github_advisories gh hasToken maxGhDeps maxDescLen deps).map
              vulnToIssue), fixed, cv⟩] = 0 := by
      rw [countSevIssues_single, hcount]
    rw [h0]
    simp

/-- The cache with a stored non-empty result for the unchanged `app.py`. -/
def cacheStored : Cache :=
  update_file_cache hashId ([] : Cache) fsAppPy "app.py" (some storedResult)

/-- A truthy cached value short-circuits the whole scan: no read, no
oracle attempt, no state change (`scan_file` lines 898–902). -/
theorem scan_file_hit (env : ScanEnv) (hashFn : String → String) (cache : Cache)
    (fs : FS) (p : String) (r : ScanResult)
    (h : get_cached_result hashFn cache fs p = some r) :
    scan_file env hashFn cache fs p false = ⟨some r, 0, cache, fs, false⟩ := by
  simp only [scan_file, Bool.false_eq_true, if_false, h]

/-- C1 counterexample: with a result stored for `app.py` and the content
unchanged, the plain scan is a hit with zero oracle attempts — but the
claim quantifies over *scanning* unqualified, and an auto-fix scan of the
very same unchanged path skips the cache (`scan_file` lines 898–902),
performs one oracle invocation attempt, and does not return the stored
result. -/
theorem C1_counterexample :
    assocGet cacheStored "app.py" = some ⟨"x = 1\n", some storedResult⟩ ∧
    fsAppPy "app.py" = some "x = 1\n" ∧
    (scan_file envNoIssues hashId cacheStored fsAppPy "app.py" false).result
        = some storedResult ∧
    (scan_file envNoIssues hashId cacheStored fsAppPy "app.py" false).oracleAttempts
        = 0 ∧
    (scan_file envNoIssues hashId cacheStored fsAppPy "app.py" true).oracleAttempts
        = 1 ∧
    (scan_file envNoIssues hashId cacheStored fsAppPy "app.py" true).result
        = none :=
  ⟨rfl, rfl, rfl, rfl, rfl, rfl⟩

/-- C1 (amended): content-addressed cache validity.  (1) For a stored
entry with a non-empty result, `get_cached_result` returns the stored
result iff the digest of the current content equals the stored digest,
and any digest change — including an unreadable file — is a miss.
(2) After storing a result for the current content, a scan of the same
path with unchanged content *and auto-fix disabled* returns the stored
result with zero oracle-invocation attempts and no state change. -/
theorem C1_amended :
    (∀ (hashFn : String → String) (cache : Cache) (fs : FS) (p : String)
        (e : CacheEntry) (r : ScanResult),
      assocGet cache p = some e → e.result = some r →
      ((get_cached_result hashFn cache fs p = some r ↔
          (fs p).map hashFn = some e.hash) ∧
       ((fs p).map hashFn ≠ some e.hash →
          get_cached_result hashFn cache fs p = none))) ∧
    (∀ (env : ScanEnv) (hashFn : String → String) (cache : Cache) (fs : FS)
        (p C : String) (r : ScanResult), fs p = some C →
      scan_file env hashFn (update_file_cache hashFn cache fs p (some r)) fs p
          false =
        ⟨some r, 0, update_file_cache hashFn cache fs p (some r), fs, false⟩) := by
  constructor
  · intro hashFn cache fs p e r hget hres
    rcases hfp : fs p with _ | C
    · have hmap : (fs p).map hashFn = none := by rw [hfp]; rfl
      have hchg : is_file_changed hashFn cache fs p = true := by
        simp [is_file_changed, get_file_hash, hfp]
      have hnone : get_cached_result hashFn cache fs p = none := by
        simp [get_cached_result, hchg]
      rw [hnone]
      simp
    · have hmap : (fs p).map hashFn = some (hashFn C) := by rw [hfp]; rfl
      by_cases heq : e.hash = hashFn C
      · have hchg : is_file_changed hashFn cache fs p = false := by
          simp [is_file_changed, get_file_hash, hfp, hget, heq]
        have hsome : get_cached_result hashFn cache fs p = some r := by
          simp [get_cached_result, hchg, hget, hres]
        rw [hsome]
        simp [heq]
      · have hchg : is_file_changed hashFn cache fs p = true := by
          simp only [is_file_changed, get_file_hash, hfp, Option.map_some, hget]
          simp [heq]
        have hnone : get_cached_result hashFn cache fs p = none := by
          simp [get_cached_result, hchg]
        rw [hnone]
        constructor
        · constructor
          · intro h; exact absurd h (by simp)
          · intro h
            simp only [Option.map_some'] at h
            injection h with h
            exact absurd h.symm heq
        · intro _; rfl
  · intro env hashFn cache fs p C r hfp
    have hupd : update_file_cache hashFn cache fs p (some r) =
        assocSet cache p ⟨hashFn C, some r⟩ := by
      simp [update_file_cache, get_file_hash, hfp]
    have hhit : get_cached_result hashFn
        (update_file_cache hashFn cache fs p (some r)) fs p = some r := by
      rw [hupd]
      have hchg : is_file_changed hashFn
          (assocSet cache p ⟨hashFn C, some r⟩) fs p = false := by
        simp [is_file_changed, get_file_hash, hfp, assocGet_set_self]
      simp [get_cached_result, hchg, assocGet_set_self]
    exact scan_file_hit env hashFn _ fs p r hhit

/-- C1 witness: the amended theorem instantiated at the stored cache. -/
theorem C1_witness :
    (get_cached_result hashId cacheStored fsAppPy "app.py" = some storedResult ↔
      (fsAppPy "app.py").map hashId = some "x = 1\n") ∧
    scan_file envNoIssues hashId cacheStored fsAppPy "app.py" false =
      ⟨some storedResult, 0, cacheStored, fsAppPy, false⟩ := by
  constructor
  · exact (C1_amended.1 hashId cacheStored fsAppPy "app.py"
      ⟨"x = 1\n", some storedResult⟩ storedResult rfl rfl).1
  · exact C1_amended.2 envNoIssues hashId ([] : Cache) fsAppPy "app.py" "x = 1\n"
      storedResult rfl

/-- C6: the oracle client never lets a failure escape.  A transport
exception surfaces as `None` with the ledger untouched; a body-parsing or
field-navigation failure surfaces as `None` (the call was already
counted); and in the analyzer, an exception before the method chain
yields the no-op envelope that preserves the original content with an
empty change list — so the per-file loop always proceeds. -/
theorem C6_client_never_raises :
    (∀ (invoke : Request → Except String String) (model_id : String)
        (maxTokens : Nat) (st : CostState) (prompt msg : String),
      invoke (mkRequest model_id maxTokens (wrapPrompt prompt)) =
          Except.error msg →
      call_ai_with_compliance invoke model_id maxTokens st prompt = (none, st)) ∧
    (∀ (invoke : Request → Except String String) (model_id : String)
        (maxTokens : Nat) (st : CostState) (prompt bodyText : String),
      invoke (mkRequest model_id maxTokens (wrapPrompt prompt)) =
          Except.ok bodyText →
      (json_loads bodyText).bind (extractModelText (reqFamilyOf model_id)) =
          none →
      call_ai_with_compliance invoke model_id maxTokens st prompt =
        (none, { st with ai_calls := st.ai_calls + 1 })) ∧
    (∀ content filename : String,
      ai_analyze_and_fix (Except.error ()) content filename =
          errorEnvelope content ∧
      dGet (errorEnvelope content) "fixed_content" JVal.jnull =
          JVal.jstr content ∧
      dGet (errorEnvelope content) "changes_made" JVal.jnull = JVal.jarr []) := by
  refine ⟨?_, ?_, ?_⟩
  · intro invoke model_id maxTokens st prompt msg hinv
    unfold call_ai_with_compliance
    simp only [hinv]
  · intro invoke model_id maxTokens st prompt bodyText hinv hparse
    unfold call_ai_with_compliance
    simp only [hinv, hparse]
  · intro content filename
    exact ⟨rfl, rfl, rfl⟩

/-- C6 witness: the theorem at a transport failure and at an unparseable
response body. -/
theorem C6_witness :
    call_ai_with_compliance (fun _ => Except.error "boom") "m" 4000 ⟨0, 0⟩ "p"
        = (none, ⟨0, 0⟩) ∧
    call_ai_with_compliance (fun _ => Except.ok "not json") "m" 4000 ⟨0, 0⟩ "p"
        = (none, ⟨1, 0⟩) ∧
    ai_analyze_and_fix (Except.error ()) "orig" "f.py" = errorEnvelope "orig" := by
  refine ⟨?_, ?_, ?_⟩
  · exact C6_client_never_raises.1 (fun _ => Except.error "boom") "m" 4000
      ⟨0, 0⟩ "p" "boom" rfl
  · exact C6_client_never_raises.2.1 (fun _ => Except.ok "not json") "m" 4000
      ⟨0, 0⟩ "p" "not json" rfl rfl
  · exact (C6_client_never_raises.2.2 "orig" "f.py").1

/-- One call moves the ledger by exactly its `callDelta`. -/
theorem call_state_delta (invoke : Request → Except String String)
    (model_id : String) (maxTokens : Nat) (st : CostState) (prompt : String) :
    (call_ai_with_compliance invoke model_id maxTokens st prompt).2.ai_calls =
      st.ai_calls + (callDelta invoke model_id maxTokens prompt).1 ∧
    (call_ai_with_compliance invoke model_id maxTokens st prompt).2.total_cost =
      st.total_cost + (callDelta invoke model_id maxTokens prompt).2 := by
  unfold call_ai_with_compliance callDelta
  simp only []
  cases hinv : invoke (mkRequest model_id maxTokens (wrapPrompt prompt)) with
  | error e => simp [hinv]
  | ok body =>
    simp only [hinv]
    cases hparse : (json_loads body).bind (extractModelText (reqFamilyOf model_id)) with
    | none => simp [hparse]
    | some out =>
      simp only [hparse]
      refine ⟨trivial, ?_⟩
      show st.total_cost + _ + _ = st.total_cost + (_ + _)
      ring

/-- A call never subtracts cost. -/
theorem callDelta_cost_nonneg (invoke : Request → Except String String)
    (model_id : String) (maxTokens : Nat) (prompt : String) :
    0 ≤ (callDelta invoke model_id maxTokens prompt).2 := by
  unfold callDelta
  simp only []
  cases hinv : invoke (mkRequest model_id maxTokens (wrapPrompt prompt)) with
  | error e => simp [hinv]
  | ok body =>
    simp only [hinv]
    cases hparse : (json_loads body).bind (extractModelText (reqFamilyOf model_id)) with
    | none => simp [hparse]
    | some out =>
      simp only [hparse]
      positivity

/-- The run's ledger is the initial ledger plus the per-call deltas. -/
theorem oracleRun_spec (invoke : Request → Except String String)
    (model_id : String) (maxTokens : Nat) :
    ∀ (ps : List String) (st : CostState),
      (oracleRun invoke model_id maxTokens st ps).ai_calls =
        st.ai_calls +
          (ps.map fun p => (callDelta invoke model_id maxTokens p).1).sum ∧
      (oracleRun invoke model_id maxTokens st ps).total_cost =
        st.total_cost +
          (ps.map fun p => (callDelta invoke model_id maxTokens p).2).sum := by
  intro ps
  induction ps with
  | nil => intro st; simp [oracleRun]
  | cons p ps ih =>
    intro st
    have h1 := call_state_delta invoke model_id maxTokens st p
    have h2 := ih (call_ai_with_compliance invoke model_id maxTokens st p).2
    constructor
    · show (oracleRun invoke model_id maxTokens
          (call_ai_with_compliance invoke model_id maxTokens st p).2 ps).ai_calls = _
      rw [h2.1, h1.1]
      simp only [List.map_cons, List.sum_cons]
      omega
    · show (oracleRun invoke model_id maxTokens
          (call_ai_with_compliance invoke model_id maxTokens st p).2 ps).total_cost = _
      rw [h2.2, h1.2]
      simp only [List.map_cons, List.sum_cons]
      ring

/-- C8: cost accounting is linear and monotone.  A completed call — one
whose transport and body parsing both succeed — increments the call
counter by exactly one and adds
`(input_chars/4)·0.00035/1000 + (output_chars/4)·0.0014/1000` to the
accumulated cost, where the input is the wrapped prompt and the output
the stripped response text; and over any run, the final ledger is the
initial one plus the per-call deltas, so neither the call counter nor the
accumulated cost ever decreases. -/
theorem C8_cost_accounting :
    (∀ (invoke : Request → Except String String) (model_id : String)
        (maxTokens : Nat) (st : CostState) (prompt bodyText out0 : String),
      invoke (mkRequest model_id maxTokens (wrapPrompt prompt)) =
          Except.ok bodyText →
      (json_loads bodyText).bind (extractModelText (reqFamilyOf model_id)) =
          some out0 →
      (call_ai_with_compliance invoke model_id maxTokens st prompt).2.ai_calls =
          st.ai_calls + 1 ∧
      (call_ai_with_compliance invoke model_id maxTokens st prompt).2.total_cost =
          st.total_cost
            + ((wrapPrompt prompt).length : ℚ) / 4 * 0.00035 / 1000
            + ((pyStrip out0).length : ℚ) / 4 * 0.0014 / 1000) ∧
    (∀ (invoke : Request → Except String String) (model_id : String)
        (maxTokens : Nat) (st : CostState) (ps : List String),
      st.ai_calls ≤ (oracleRun invoke model_id maxTokens st ps).ai_calls ∧
      st.total_cost ≤ (oracleRun invoke model_id maxTokens st ps).total_cost ∧
      (oracleRun invoke model_id maxTokens st ps).ai_calls =
        st.ai_calls +
          (ps.map fun p => (callDelta invoke model_id maxTokens p).1).sum ∧
      (oracleRun invoke model_id maxTokens st ps).total_cost =
        st.total_cost +
          (ps.map fun p => (callDelta invoke model_id maxTokens p).2).sum) := by
  constructor
  · intro invoke model_id maxTokens st prompt bodyText out0 hinv hparse
    unfold call_ai_with_compliance
    simp only [hinv, hparse]
    exact ⟨trivial, by trivial⟩
  · intro invoke model_id maxTokens st ps
    have hspec := oracleRun_spec invoke model_id maxTokens ps st
    refine ⟨?_, ?_, hspec.1, hspec.2⟩
    · rw [hspec.1]; omega
    · rw [hspec.2]
      have hsum : 0 ≤ (ps.map fun p => (callDelta invoke model_id maxTokens p).2).sum := by
        apply List.sum_nonneg
        intro x hx
        rcases List.mem_map.mp hx with ⟨q, _, rfl⟩
        exact callDelta_cost_nonneg invoke model_id maxTokens q
      linarith

/-- A concrete successful response body for the C8 witness. -/
def c8body : String := "\x7b\"content\": [\x7b\"text\": \" hi \"\x7d]\x7d"

/-- C8 witness: a completed call at a concrete successful invocation. -/
theorem C8_witness :
    (json_loads c8body).bind (extractModelText (reqFamilyOf "anthropic.claude"))
        = some " hi " ∧
    (call_ai_with_compliance (fun _ => Except.ok c8body) "anthropic.claude" 4000
        ⟨3, 5⟩ "p").2.ai_calls = 3 + 1 := by
  constructor
  · rfl
  · exact (C8_cost_accounting.1 (fun _ => Except.ok c8body) "anthropic.claude"
      4000 ⟨3, 5⟩ "p" c8body " hi " rfl rfl).1

/-- Method 4 yields nothing when no trigger substring is present. -/
theorem method4_none_of_no_triggers (content : List Char)
    (h1 : containsSubL cidrBad.data content = false)
    (h2 : containsSubL privBad.data content = false)
    (h3 : containsSubL rootBad.data content = false) :
    method4 content = none := by
  unfold method4 m4Steps
  simp [h1, h2, h3]

/-- With every method failed, the chain answers the no-op fallback. -/
theorem ai_chain_fallback (content filename : String) (t : List Char)
    (h1 : method1 t = none) (h2 : method2 t = none)
    (h3 : method3 filename t = none) (h4 : method4 content.data = none) :
    ai_chain content filename t = fallbackEnvelope content := by
  simp [ai_chain, h1, h2, h3, h4, pickTruthy, aiResultTruthy]

/-- C4: no-op safety of the extractor.  When no strategy produces a
usable result — the response (as stripped, and as fence-cleaned) contains
no quoted `fixed_content` key, no structural anchor matches, and the
original content contains none of the trigger substrings — the returned
envelope carries the original content byte-for-byte and an empty change
list; likewise when the oracle call itself raised. -/
theorem C4_noop_safety (raw content filename : String)
    (h1 : containsSubL m1key (cleanTicks (pyStripL raw.data)) = false)
    (h2 : containsSubL m1key (pyStripL raw.data) = false)
    (h3 : method3 filename (pyStripL raw.data) = none)
    (h4c : containsSubL cidrBad.data content.data = false)
    (h4p : containsSubL privBad.data content.data = false)
    (h4r : containsSubL rootBad.data content.data = false) :
    ai_analyze_and_fix (Except.ok raw) content filename =
        fallbackEnvelope content ∧
    dGet (fallbackEnvelope content) "fixed_content" JVal.jnull =
        JVal.jstr content ∧
    dGet (fallbackEnvelope content) "changes_made" JVal.jnull = JVal.jarr [] ∧
    ai_analyze_and_fix (Except.error ()) content filename =
        errorEnvelope content ∧
    dGet (errorEnvelope content) "fixed_content" JVal.jnull = JVal.jstr content ∧
    dGet (errorEnvelope content) "changes_made" JVal.jnull = JVal.jarr [] := by
  refine ⟨?_, rfl, rfl, rfl, rfl, rfl⟩
  show ai_chain content filename (pyStripL raw.data) = fallbackEnvelope content
  exact ai_chain_fallback content filename _ (method1_of_not_contains _ h1)
    (method2_of_not_contains _ h2) h3
    (method4_none_of_no_triggers _ h4c h4p h4r)

/-- C4 witness: a prose response over trigger-free content. -/
theorem C4_witness :
    containsSubL m1key (cleanTicks (pyStripL ("just prose" : String).data)) = false ∧
    containsSubL m1key (pyStripL ("just prose" : String).data) = false ∧
    method3 "f.yaml" (pyStripL ("just prose" : String).data) = none ∧
    containsSubL cidrBad.data ("clean content" : String).data = false ∧
    ai_analyze_and_fix (Except.ok "just prose") "clean content" "f.yaml" =
      fallbackEnvelope "clean content" := by
  refine ⟨rfl, rfl, rfl, rfl, ?_⟩
  exact (C4_noop_safety "just prose" "clean content" "f.yaml"
    rfl rfl rfl rfl rfl rfl).1

/-- A truthy method-1 result short-circuits the whole chain. -/
theorem ai_chain_method1 (content filename : String) (t : List Char) (v : JVal)
    (hm1 : method1 t = some v) (htr : pyTruthy v = true) :
    ai_chain content filename t = v := by
  simp [ai_chain, hm1, pickTruthy, aiResultTruthy, htr]

/-- With methods 1–2 failed and the anchor found, the chain answers the
method-3 envelope. -/
theorem ai_chain_method3 (content filename : String) (t : List Char) (e3 : JVal)
    (h1 : method1 t = none) (h2 : method2 t = none)
    (h3 : method3 filename t = some e3) :
    ai_chain content filename t = e3 := by
  have htr : pyTruthy e3 = true := by
    unfold method3 at h3
    rcases hanchor : (if endsWithStr ".tf" filename = true then findTfAnchor t
        else findApiVersion t) with _ | cand
    · rw [hanchor] at h3
      exact absurd h3 (by simp)
    · rw [hanchor] at h3
      simp only [Option.some.injEq] at h3
      rw [← h3]
      rfl
  simp [ai_chain, h1, h2, h3, pickTruthy, aiResultTruthy, htr]

/-- At least one trigger present makes method 4's change list non-empty. -/
theorem m4Steps_changes_ne_nil (content : List Char)
    (htrig : containsSubL cidrBad.data content = true ∨
             containsSubL privBad.data content = true ∨
             containsSubL rootBad.data content = true) :
    (m4Steps content).2 ≠ [] := by
  by_cases hc : containsSubL cidrBad.data content = true <;>
    by_cases hp : containsSubL privBad.data content = true <;>
      by_cases hr : containsSubL rootBad.data content = true <;>
        simp [m4Steps, hc, hp, hr] at htrig ⊢

/-- With methods 1–3 failed and a trigger present, the chain answers the
method-4 envelope built by the substitution table. -/
theorem ai_chain_method4 (content filename : String) (t : List Char)
    (h1 : method1 t = none) (h2 : method2 t = none)
    (h3 : method3 filename t = none)
    (htrig : containsSubL cidrBad.data content.data = true ∨
             containsSubL privBad.data content.data = true ∨
             containsSubL rootBad.data content.data = true) :
    ai_chain content filename t =
      JVal.jobj
        [("issues", issuesOneHigh "Security issues found and fixed"),
         ("fixed_content", JVal.jstr ⟨(m4Steps content.data).1⟩),
         ("changes_made", JVal.jarr ((m4Steps content.data).2.map JVal.jstr))] := by
  have hne := m4Steps_changes_ne_nil content.data htrig
  have hm4 : method4 content.data =
      some (JVal.jobj
        [("issues", issuesOneHigh "Security issues found and fixed"),
         ("fixed_content", JVal.jstr ⟨(m4Steps content.data).1⟩),
         ("changes_made", JVal.jarr ((m4Steps content.data).2.map JVal.jstr))]) := by
    unfold method4
    have hemp : (m4Steps content.data).2.isEmpty = false := by
      rcases hq : (m4Steps content.data).2 with _ | ⟨a, as⟩
      · exact absurd hq hne
      · rfl
    simp [hemp]
  simp [ai_chain, h1, h2, h3, hm4, pickTruthy, aiResultTruthy, pyTruthy]

/-- C2 counterexample data: a response that contains, verbatim, a
parseable JSON object carrying the quoted `fixed_content` key, preceded by
an unrelated brace-delimited fragment. -/
def c2resp : String := "x \x7b\"y\": 1\x7d \x7b\"fixed_content\": \"abc\"\x7d"

/-- The parseable object contained in [[c2resp]]. -/
def c2obj : String := "\x7b\"fixed_content\": \"abc\"\x7d"

/-- C2 counterexample: the response [[c2resp]] contains the parseable
object [[c2obj]] verbatim (which `json.loads` accepts and which carries
the key), yet strategy 1 fails — its lazy regex span starts at the
*earlier* unrelated brace and is not valid JSON — and the chain resolves
by strategy 2's field regex instead, returning the canned envelope (whose
`changes_made` is the canned one-element list, a key the contained object
does not even have) rather than the parsed object. -/
theorem C2_counterexample :
    containsSubStr c2obj c2resp = true ∧
    json_loads c2obj = some (JVal.jobj [("fixed_content", JVal.jstr "abc")]) ∧
    method1 (pyStripL c2resp.data) = none ∧
    ai_analyze_and_fix (Except.ok c2resp) "orig" "app.yaml" =
      JVal.jobj
        [("issues", JVal.jarr [JVal.jobj
            [("severity", JVal.jstr "high"),
             ("description", JVal.jstr "Security issues fixed"),
             ("line", JVal.jnum ['1'])]]),
         ("fixed_content", JVal.jstr "abc"),
         ("changes_made", JVal.jarr [JVal.jstr "AI security fixes applied"])] ∧
    jLookup (JVal.jobj [("fixed_content", JVal.jstr "abc")]) "changes_made" =
      none :=
  ⟨rfl, rfl, rfl, rfl, rfl⟩

/-- C2 (amended): the chain is first-match over the fixed order, with
strategy 1's trigger being its *regex span* parsing — not mere presence of
a parseable object.  (a) A successfully parsed, truthy strategy-1 result
wins outright.  (b) If the quoted key occurs nowhere in the response
(fence-cleaned or raw), strategies 1–2 cannot fire, and a found
language-structural anchor resolves the chain with the anchor envelope.
(c) With no key and no anchor, a trigger substring in the original content
resolves the chain by the substitution table, with a non-empty change
list.  (d) Each table substitution replaces every occurrence of the
trigger and keeps the rest byte-identical: the input splits into pieces
free of the trigger, joined by the trigger; the output is the same pieces
joined by the replacement. -/
theorem C2_extraction_chain (content filename : String) (t : List Char) :
    (∀ v : JVal, method1 t = some v → pyTruthy v = true →
        ai_chain content filename t = v) ∧
    (containsSubL m1key (cleanTicks t) = false →
     containsSubL m1key t = false →
     ∀ e3 : JVal, method3 filename t = some e3 →
        ai_chain content filename t = e3) ∧
    (containsSubL m1key (cleanTicks t) = false →
     containsSubL m1key t = false →
     method3 filename t = none →
     (containsSubL cidrBad.data content.data = true ∨
      containsSubL privBad.data content.data = true ∨
      containsSubL rootBad.data content.data = true) →
        ai_chain content filename t =
          JVal.jobj
            [("issues", issuesOneHigh "Security issues found and fixed"),
             ("fixed_content", JVal.jstr ⟨(m4Steps content.data).1⟩),
             ("changes_made",
              JVal.jarr ((m4Steps content.data).2.map JVal.jstr))] ∧
          (m4Steps content.data).2 ≠ []) ∧
    (∀ pat rep s : List Char, pat ≠ [] →
        ∃ pieces : List (List Char), pieces ≠ [] ∧
          (∀ p ∈ pieces, containsSubL pat p = false) ∧
          joinSep pat pieces = s ∧
          replaceAllL pat rep s = joinSep rep pieces) := by
  refine ⟨?_, ?_, ?_, ?_⟩
  · intro v hm1 htr
    exact ai_chain_method1 content filename t v hm1 htr
  · intro hclean hraw e3 hm3
    exact ai_chain_method3 content filename t e3
      (method1_of_not_contains t hclean) (method2_of_not_contains t hraw) hm3
  · intro hclean hraw hm3 htrig
    exact ⟨ai_chain_method4 content filename t
        (method1_of_not_contains t hclean) (method2_of_not_contains t hraw)
        hm3 htrig,
      m4Steps_changes_ne_nil content.data htrig⟩
  · intro pat rep s hp
    exact replaceAll_complete pat rep s hp

/-- A fenced strategy-1 response used by the C2 witness. -/
def c2fenced : String :=
  "```json\n\x7b\"issues\": [], \"fixed_content\": \"ok: 1\", \"changes_made\": [\"x\"]\x7d\n```"

/-- C2 witness: part (a) at a fenced JSON response — strategy 1 parses it
and wins — and part (c) at a key-free, anchor-free response over content
holding the open-CIDR trigger. -/
theorem C2_witness :
    method1 (pyStripL c2fenced.data) =
      some (JVal.jobj
        [("issues", JVal.jarr []),
         ("fixed_content", JVal.jstr "ok: 1"),
         ("changes_made", JVal.jarr [JVal.jstr "x"])]) ∧
    ai_chain "orig" "app.yaml" (pyStripL c2fenced.data) =
      JVal.jobj
        [("issues", JVal.jarr []),
         ("fixed_content", JVal.jstr "ok: 1"),
         ("changes_made", JVal.jarr [JVal.jstr "x"])] ∧
    ai_chain "cidr: 0.0.0.0/0\n" "app.yaml" (pyStripL ("no fix here" : String).data) =
      JVal.jobj
        [("issues", issuesOneHigh "Security issues found and fixed"),
         ("fixed_content",
          JVal.jstr ⟨(m4Steps ("cidr: 0.0.0.0/0\n" : String).data).1⟩),
         ("changes_made",
          JVal.jarr ((m4Steps ("cidr: 0.0.0.0/0\n" : String).data).2.map
            JVal.jstr))] ∧
    JVal.jstr ⟨(m4Steps ("cidr: 0.0.0.0/0\n" : String).data).1⟩ =
      JVal.jstr "cidr: 10.0.0.0/8\n" := by
  refine ⟨rfl, ?_, ?_, rfl⟩
  · exact (C2_extraction_chain "orig" "app.yaml" (pyStripL c2fenced.data)).1 _
      rfl rfl
  · exact ((C2_extraction_chain "cidr: 0.0.0.0/0\n" "app.yaml"
      (pyStripL ("no fix here" : String).data)).2.2.1 rfl rfl rfl
      (Or.inl rfl)).1

/-- Every envelope the extractor returns is a non-empty dict — truthy.
The `if not ai_result:` guard in `apply_ai_fixes` can therefore never
fire. -/
theorem ai_analyze_truthy (oracle : Except Unit String)
    (content filename : String) :
    pyTruthy (ai_analyze_and_fix oracle content filename) = true := by
  cases oracle with
  | error e => rfl
  | ok raw =>
    show pyTruthy (ai_chain content filename (pyStripL raw.data)) = true
    unfold ai_chain
    rcases hr : pickTruthy
        (pickTruthy (pickTruthy (method1 (pyStripL raw.data))
          (method2 (pyStripL raw.data))) (method3 filename (pyStripL raw.data)))
        (method4 content.data) with _ | v
    · simp only [hr]
      rfl
    · simp only [hr]
      by_cases htv : pyTruthy v = true
      · simp [htv]
      · simp only [htv, Bool.false_eq_true, if_false]
        rfl

/-- A candidate the auto-fix section wrote passed `scan_file`'s write
gate: non-empty, longer than 50 characters, different from the code, and
structurally validated. -/
theorem autoFixStep_written (env : ScanEnv) (code : String)
    (issues : List Issue) (language : String) (framework : Option String)
    (filepath : String) (fc : String)
    (h : (autoFixStep env code issues language framework filepath).written =
      some fc) :
    fc ≠ "" ∧ fc.length > 50 ∧ fc ≠ code ∧
      basic_validation env.pythonOk fc language = true := by
  simp only [autoFixStep] at h
  split at h
  · exact Option.noConfusion h
  · split at h
    · split at h
      next hg =>
        simp only [Option.some.injEq] at h
        rw [← h]
        exact hg
      next hg => exact Option.noConfusion h
    · split at h
      next hg =>
        simp only [Option.some.injEq] at h
        rw [← h]
        exact hg
      next hg => exact Option.noConfusion h

/-- Any alteration `scan_file` (auto-fix mode, no crash) makes to the
file system is a write of the scanned file with a candidate that passed
the write gate. -/
theorem scan_file_write_gate (env : ScanEnv) (hashFn : String → String)
    (cache : Cache) (fs : FS) (filepath q : String)
    (hex : (scan_file env hashFn cache fs filepath true).exn = false)
    (hq : (scan_file env hashFn cache fs filepath true).fsAfter q ≠ fs q) :
    ∃ code fc, q = filepath ∧ fs filepath = some code ∧
      (scan_file env hashFn cache fs filepath true).fsAfter q = some fc ∧
      fc ≠ code ∧ fc.length > 50 ∧ fc ≠ "" ∧
      basic_validation env.pythonOk fc
        (detect_language_and_framework filepath code).1 = true := by
  rcases hfp : fs filepath with _ | code
  · exact absurd (by unfold scan_file; simp [hfp] : (scan_file env hashFn
      cache fs filepath true).fsAfter q = fs q) hq
  · by_cases hunk : (detect_language_and_framework filepath code).1 = "Unknown"
    · exact absurd (by unfold scan_file; simp [hfp, hunk] : (scan_file env
        hashFn cache fs filepath true).fsAfter q = fs q) hq
    · by_cases hie : ((compliance_detect_model env filepath code).1 ++
          check_version_pinning code filepath ++
          (scanVulns env code filepath).map vulnToIssue).isEmpty = true
      · exact absurd (by unfold scan_file; simp [hfp, hunk]; rw [if_pos hie] :
          (scan_file env hashFn cache fs filepath true).fsAfter q = fs q) hq
      · rcases hcr : (autoFixStep env code
            ((compliance_detect_model env filepath code).1 ++
              (check_version_pinning code filepath ++
              (scanVulns env code filepath).map vulnToIssue))
            (detect_language_and_framework filepath code).1
            (detect_language_and_framework filepath code).2 filepath).crashed
          with _ | _
        · rcases hw : (autoFixStep env code
              ((compliance_detect_model env filepath code).1 ++
                (check_version_pinning code filepath ++
                (scanVulns env code filepath).map vulnToIssue))
              (detect_language_and_framework filepath code).1
              (detect_language_and_framework filepath code).2 filepath).written
            with _ | fc
          · exact absurd (by
              unfold scan_file
              simp [hfp, hunk]
              rw [if_neg hie]
              simp only [hcr, Bool.false_eq_true, if_false, hw] :
              (scan_file env hashFn cache fs filepath true).fsAfter q = fs q) hq
          · have hfsA : (scan_file env hashFn cache fs filepath true).fsAfter =
                fun p => if p = filepath then some fc else fs p := by
              unfold scan_file
              simp [hfp, hunk]
              rw [if_neg hie]
              simp only [hcr, Bool.false_eq_true, if_false, hw]
            by_cases hqf : q = filepath
            · obtain ⟨h1, h2, h3, h4⟩ := autoFixStep_written env code _ _ _
                filepath fc hw
              refine ⟨code, fc, hqf, rfl, ?_, h3, h2, h1, h4⟩
              rw [hfsA]
              simp [hqf]
            · exact absurd (by rw [hfsA]; simp [hqf]) hq
        · have hexn : (scan_file env hashFn cache fs filepath true).exn =
              true := by
            unfold scan_file
            simp [hfp, hunk]
            rw [if_neg hie]
            rw [if_pos hcr]
          rw [hexn] at hex
          cases hex

/-- C3 counterexample data: a 60-character original. -/
def c3orig : String :=
  "resource \"aws_s3_bucket\" \"b\" \x7b bucket = \"prod-data-bucket\" \x7d"

/-- C3 counterexample data: an oracle response whose JSON parses to a
one-character candidate with a non-empty change list. -/
def c3resp : String :=
  "\x7b\"fixed_content\": \"x\", \"changes_made\": [\"c\"]\x7d"

/-- C3 counterexample: `apply_ai_fixes` writes the one-character candidate
`"x"` over a 60-character original — no minimum-length condition and no
structural sanity check guard that write (the scanner's own
`basic_validation` would have rejected the candidate). -/
theorem C3_counterexample :
    c3orig.length = 60 ∧
    apply_ai_fixes (Except.ok c3resp) (some c3orig) "main.tf" =
      ⟨true, some "x", JVal.jarr []⟩ ∧
    ("x" : String).length = 1 ∧
    basic_validation (fun _ => true) "x" "Terraform" = false :=
  ⟨rfl, rfl, rfl, rfl⟩

/-- C3 (corrected): what the two write gates actually check.  In
`apply_ai_fixes`, with the envelope's candidate string `s` and change
list `l`, the file is written iff `s` is non-empty, differs from the
original, and `l` is non-empty — no minimum-length and no structural
condition; a rejected candidate (and a non-written run) leaves the file
at the original.  In `scan_file` auto-fix mode, any change to the file
system is a write of the scanned file whose candidate is non-empty,
longer than 50 characters, differs from the code and passes
`basic_validation` — but no change-description condition exists on that
path.  Neither gate checks all four claimed conditions. -/
theorem C3_write_gates (oracle : Except Unit String)
    (original file_path s : String) (l : List JVal)
    (hfc : dGet (ai_analyze_and_fix oracle original file_path)
        "fixed_content" (JVal.jstr original) = JVal.jstr s)
    (hch : dGet (ai_analyze_and_fix oracle original file_path)
        "changes_made" (JVal.jarr []) = JVal.jarr l) :
    ((apply_ai_fixes oracle (some original) file_path).written = true ↔
      (s ≠ "" ∧ s ≠ original ∧ l ≠ [])) ∧
    ((apply_ai_fixes oracle (some original) file_path).written = true →
      (apply_ai_fixes oracle (some original) file_path).finalContent =
        some s) ∧
    ((apply_ai_fixes oracle (some original) file_path).written = false →
      (apply_ai_fixes oracle (some original) file_path).finalContent =
        some original) ∧
    (∀ (env : ScanEnv) (hashFn : String → String) (cache : Cache) (fs : FS)
        (filepath q : String),
      (scan_file env hashFn cache fs filepath true).exn = false →
      (scan_file env hashFn cache fs filepath true).fsAfter q ≠ fs q →
      ∃ code fc, q = filepath ∧ fs filepath = some code ∧
        (scan_file env hashFn cache fs filepath true).fsAfter q = some fc ∧
        fc ≠ code ∧ fc.length > 50 ∧ fc ≠ "" ∧
        basic_validation env.pythonOk fc
          (detect_language_and_framework filepath code).1 = true) := by
  have htr := ai_analyze_truthy oracle original file_path
  have hscan := fun env hashFn cache fs filepath q hex hq =>
    scan_file_write_gate env hashFn cache fs filepath q hex hq
  by_cases hs0 : s = ""
  · have hkey : (apply_ai_fixes oracle (some original) file_path).written =
        false ∧ (apply_ai_fixes oracle (some original) file_path).finalContent =
        some original := by
      unfold apply_ai_fixes
      simp only [htr, hfc, hch, hs0]
      simp [pyTruthy]
    refine ⟨⟨fun h => absurd h (by simp [hkey.1]),
      fun h => absurd hs0 h.1⟩,
      fun h => absurd h (by simp [hkey.1]), fun _ => hkey.2, hscan⟩
  · by_cases hso : s = original
    · have hkey : (apply_ai_fixes oracle (some original) file_path).written =
          false ∧
          (apply_ai_fixes oracle (some original) file_path).finalContent =
          some original := by
        unfold apply_ai_fixes
        simp only [htr, hfc, hch]
        simp [pyTruthy, pyEqStr, hs0, hso]
      refine ⟨⟨fun h => absurd h (by simp [hkey.1]),
        fun h => absurd hso h.2.1⟩,
        fun h => absurd h (by simp [hkey.1]), fun _ => hkey.2, hscan⟩
    · rcases hl : l with _ | ⟨a, as⟩
      · have hkey : (apply_ai_fixes oracle (some original) file_path).written =
            false ∧
            (apply_ai_fixes oracle (some original) file_path).finalContent =
            some original := by
          unfold apply_ai_fixes
          simp only [htr, hfc, hch, hl]
          simp [pyTruthy, pyEqStr, pyLen, hs0, hso]
        refine ⟨⟨fun h => absurd h (by simp [hkey.1]),
          fun h => absurd rfl h.2.2⟩,
          fun h => absurd h (by simp [hkey.1]), fun _ => hkey.2, hscan⟩
      · have hkey : (apply_ai_fixes oracle (some original) file_path).written =
            true ∧
            (apply_ai_fixes oracle (some original) file_path).finalContent =
            some s := by
          unfold apply_ai_fixes
          simp only [htr, hfc, hch, hl]
          simp [pyTruthy, pyEqStr, pyLen, hs0, hso]
        refine ⟨⟨fun _ => ⟨hs0, hso, by simp⟩, fun _ => hkey.1⟩,
          fun _ => hkey.2, fun h => absurd hkey.1 (by simp [h]), hscan⟩

/-- C3 witness: the gate characterization applied at the counterexample
input — the extracted candidate is `"x"`, the change list `["c"]`, and
the gate fires because the three checked conditions hold there. -/
theorem C3_witness :
    dGet (ai_analyze_and_fix (Except.ok c3resp) c3orig "main.tf")
        "fixed_content" (JVal.jstr c3orig) = JVal.jstr "x" ∧
    dGet (ai_analyze_and_fix (Except.ok c3resp) c3orig "main.tf")
        "changes_made" (JVal.jarr []) = JVal.jarr [JVal.jstr "c"] ∧
    ((apply_ai_fixes (Except.ok c3resp) (some c3orig) "main.tf").written =
        true ↔
      (("x" : String) ≠ "" ∧ ("x" : String) ≠ c3orig ∧
        ([JVal.jstr "c"] : List JVal) ≠ [])) := by
  refine ⟨rfl, rfl, ?_⟩
  exact (C3_write_gates (Except.ok c3resp) c3orig "main.tf" "x"
    [JVal.jstr "c"] rfl rfl).1

end AiOps
